import Mathlib

/-!
# Verification of the jsnes NES emulator core against its specification

Shallow embedding of the parts of the jsnes source that the checked claims
are about, together with proofs settling each claim.  Each section names the
source file and functions it translates.  JavaScript numbers holding bytes,
addresses and counters are modelled as `Nat` (with explicit masking where the
source masks), and counters that go negative in the source are modelled as
`Int`.
-/

set_option maxHeartbeats 1000000

namespace JsnesProof

/-! ## Game Genie codes (src/gamegenie.js)

`LETTER_VALUES`, `toDigit`, `toLetter`, `decode` and `encode` translated from
src/gamegenie.js.  `decode`'s hex path (`decodeHex`, taken only for codes
containing a `:`) is outside the letter-code claim and is modelled as `none`;
letter codes never contain `:`.  JS `indexOf` returning `-1` for a character
that is not a code letter is modelled by `Option`. -/

namespace GameGenie

/-- The sixteen Game Genie code letters (`LETTER_VALUES`). -/
def LETTER_VALUES : List Char :=
  ['A', 'P', 'Z', 'L', 'G', 'I', 'T', 'Y', 'E', 'O', 'X', 'U', 'K', 'S', 'V', 'N']

/-- `toDigit(letter)`: index of the letter in `LETTER_VALUES`. -/
def toDigit (letter : Char) : Option Nat :=
  LETTER_VALUES.findIdx? (fun c => c = letter)

/-- `toLetter(digit)`: the letter at the given position (`substr(digit, 1)`). -/
def toLetter (digit : Nat) : Char :=
  LETTER_VALUES.getD digit 'A'

/-- The record returned by `decode`: `{ value, addr, wantskey, key }`. -/
structure GGPatch where
  value : Nat
  addr : Nat
  wantskey : Bool
  key : Option Nat
deriving Repr, DecidableEq

/-- The digit-level body of `decode`, for a 6-letter or an 8-letter code
(other lengths index past the array in JS and are modelled as `none`). -/
def decodeDigits (digits : List Nat) : Option GGPatch :=
  match digits with
  | [d0, d1, d2, d3, d4, d5] =>
    let value := ((d0 &&& 8) <<< 4) + ((d1 &&& 7) <<< 4) + (d0 &&& 7) + (d5 &&& 8)
    let addr := ((d3 &&& 7) <<< 12) + ((d4 &&& 8) <<< 8) + ((d5 &&& 7) <<< 8) +
      ((d1 &&& 8) <<< 4) + ((d2 &&& 7) <<< 4) + (d3 &&& 8) + (d4 &&& 7)
    some { value := value, addr := addr, wantskey := d2 >>> 3 ≠ 0, key := none }
  | [d0, d1, d2, d3, d4, d5, d6, d7] =>
    let value := ((d0 &&& 8) <<< 4) + ((d1 &&& 7) <<< 4) + (d0 &&& 7) + (d7 &&& 8)
    let addr := ((d3 &&& 7) <<< 12) + ((d4 &&& 8) <<< 8) + ((d5 &&& 7) <<< 8) +
      ((d1 &&& 8) <<< 4) + ((d2 &&& 7) <<< 4) + (d3 &&& 8) + (d4 &&& 7)
    let key := ((d6 &&& 8) <<< 4) + ((d7 &&& 7) <<< 4) + (d5 &&& 8) + (d6 &&& 7)
    some { value := value, addr := addr, wantskey := d2 >>> 3 ≠ 0, key := some key }
  | _ => none

/-- `decode(code)` for letter codes: upper-case, map `toDigit`, decode. -/
def decode (code : List Char) : Option GGPatch :=
  if code.contains ':' then none
  else do
    let digits ← (code.map Char.toUpper).mapM toDigit
    decodeDigits digits

/-- `encode(addr, value, key, wantskey)`: builds the six or eight code digits
and maps them to letters. -/
def encode (addr value : Nat) (key : Option Nat) (wantskey : Bool) : List Char :=
  let d0 := (value &&& 7) + ((value >>> 4) &&& 8)
  let d1 := ((value >>> 4) &&& 7) + ((addr >>> 4) &&& 8)
  let d2 := (addr >>> 4) &&& 7
  let d3 := (addr >>> 12) + (addr &&& 8)
  let d4 := (addr &&& 7) + ((addr >>> 8) &&& 8)
  let d5 := (addr >>> 8) &&& 7
  match key with
  | none =>
    [d0, d1, if wantskey then d2 + 8 else d2, d3, d4, d5 + (value &&& 8)].map toLetter
  | some k =>
    [d0, d1, d2 + 8, d3, d4, d5 + (k &&& 8),
      (k &&& 7) + ((k >>> 4) &&& 8), ((k >>> 4) &&& 7) + (value &&& 8)].map toLetter

/-- Bit masking by 7 is reduction mod 8. -/
theorem and_seven (x : Nat) : x &&& 7 = x % 8 := by
  simpa using Nat.and_pow_two_sub_one_eq_mod x 3

/-- Bit masking by 8 extracts bit 3. -/
theorem and_eight (x : Nat) : x &&& 8 = x / 8 % 2 * 8 := by
  have h : x &&& 8 = (x.testBit 3).toNat * 8 := by
    simpa using Nat.and_two_pow x 3
  rw [h, Nat.testBit_to_div_mod]
  have h8 : (2 : Nat) ^ 3 = 8 := by norm_num
  rw [h8]
  rcases Nat.mod_two_eq_zero_or_one (x / 8) with h2 | h2 <;> rw [h2] <;> simp

/-- Valid digits round-trip through the letter table, and never give `:`. -/
theorem toDigit_toLetter {d : Nat} (h : d < 16) :
    toDigit (Char.toUpper (toLetter d)) = some d := by
  interval_cases d <;> decide

/-- No position of the letter table holds `:`. -/
theorem toLetter_ne_colon (d : Nat) : toLetter d ≠ ':' := by
  unfold toLetter
  rcases lt_or_ge d 16 with h | h
  · interval_cases d <;> decide
  · rw [List.getD_eq_default _ _ (by simpa [LETTER_VALUES] using h)]
    decide

/-- Letters of valid digits map back to exactly those digits. -/
theorem mapM_toDigit_map_toLetter (ds : List Nat) (h : ∀ d ∈ ds, d < 16) :
    ((ds.map toLetter).map Char.toUpper).mapM toDigit = some ds := by
  induction ds with
  | nil => rfl
  | cons d ds ih =>
    have hd : d < 16 := h d (by simp)
    have hds := ih (fun x hx => h x (by simp [hx]))
    simp only [List.map_cons, List.mapM_cons, hds, toDigit_toLetter hd,
      Option.bind_eq_bind, Option.some_bind]
    rfl

/-- `decode` of letters of valid digits is `decodeDigits` of the digits. -/
theorem decode_map_toLetter (ds : List Nat) (h : ∀ d ∈ ds, d < 16) :
    decode (ds.map toLetter) = decodeDigits ds := by
  have hc : ((ds.map toLetter).contains ':') = false := by
    rw [List.contains_eq_any_beq, List.any_eq_false]
    intro c hcmem
    simp only [List.mem_map] at hcmem
    obtain ⟨d, -, rfl⟩ := hcmem
    intro hbeq
    exact toLetter_ne_colon d (eq_of_beq hbeq).symm
  unfold decode
  rw [hc, if_neg Bool.false_ne_true]
  show (((ds.map toLetter).map Char.toUpper).mapM toDigit).bind
    (fun digits => decodeDigits digits) = decodeDigits ds
  rw [mapM_toDigit_map_toLetter ds h]
  rfl

/-- Low three bits of a digit are unaffected by its bit-3 component. -/
theorem dig_mod (x y : Nat) : (x % 8 + y % 2 * 8) % 8 = x % 8 := by omega

/-- Bit 3 of a digit recovers its bit-3 component. -/
theorem dig_div (x y : Nat) : (x % 8 + y % 2 * 8) / 8 % 2 = y % 2 := by omega

/-- Adding the wantskey bit does not change the low three bits of a digit. -/
theorem dig_mod8 (x : Nat) : (x % 8 + 8) % 8 = x % 8 := by omega

/-- Reducing mod 8 twice is reducing once. -/
theorem dig_mm (x : Nat) : x % 8 % 8 = x % 8 := by omega

/-- Variant of `dig_mod` for a component already known to be below 8. -/
theorem dig_hi_mod (x y : Nat) (h : x < 8) : (x + y % 2 * 8) % 8 = x := by omega

/-- Variant of `dig_div` for a component already known to be below 8. -/
theorem dig_hi_div (x y : Nat) (h : x < 8) : (x + y % 2 * 8) / 8 % 2 = y % 2 := by omega

/-- C9: for every address representable in 15 bits, byte value, and optional
byte compare key, decoding the Game Genie code produced by
`encode(addr, value, key)` returns exactly the same address, value and key. -/
theorem gamegenie_decode_encode (addr value : Nat) (key : Option Nat) (wantskey : Bool)
    (haddr : addr < 0x8000) (hvalue : value < 0x100)
    (hkey : ∀ x ∈ key, x < 0x100) :
    (decode (encode addr value key wantskey)).map (fun p => (p.addr, p.value, p.key)) =
      some (addr, value, key) := by
  have hd12 : addr / 2 ^ 12 < 8 := by omega
  have h7 : ∀ x : Nat, x &&& 7 < 8 := fun x => by rw [and_seven]; omega
  have h8 : ∀ x : Nat, x &&& 8 ≤ 8 := fun x => by rw [and_eight]; omega
  have h12 : addr >>> 12 < 8 := by rw [Nat.shiftRight_eq_div_pow]; omega
  rcases key with _ | k
  · simp only [encode]
    rw [decode_map_toLetter]
    · simp only [decodeDigits, Option.map_some', Option.some.injEq, Prod.mk.injEq]
      refine ⟨?_, ?_, ?_⟩
      · simp only [Nat.shiftLeft_eq, Nat.shiftRight_eq_div_pow, and_seven, and_eight,
          dig_mod, dig_div, dig_mod8, dig_mm]
        have hsplit :
            (if wantskey = true then addr / 2 ^ 4 % 8 + 8 else addr / 2 ^ 4 % 8) % 8 =
              addr / 2 ^ 4 % 8 := by
          split <;> omega
        rw [hsplit, dig_hi_mod _ _ hd12, dig_hi_div _ _ hd12]
        omega
      · simp only [Nat.shiftLeft_eq, Nat.shiftRight_eq_div_pow, and_seven, and_eight,
          dig_mod, dig_div, dig_mod8, dig_mm]
        omega
      · trivial
    · intro d hd
      simp only [List.mem_cons, List.not_mem_nil, or_false] at hd
      rcases hd with h | h | h | h | h | h <;> subst h
      · have := h7 value; have := h8 (value >>> 4); omega
      · have := h7 (value >>> 4); have := h8 (addr >>> 4); omega
      · have := h7 (addr >>> 4); split <;> omega
      · have := h8 addr; omega
      · have := h7 addr; have := h8 (addr >>> 8); omega
      · have := h7 (addr >>> 8); have := h8 value; omega
  · have hk : k < 0x100 := hkey k rfl
    simp only [encode]
    rw [decode_map_toLetter]
    · simp only [decodeDigits, Option.map_some', Option.some.injEq, Prod.mk.injEq]
      refine ⟨?_, ?_, ?_⟩ <;>
        simp only [Nat.shiftLeft_eq, Nat.shiftRight_eq_div_pow, and_seven, and_eight,
          dig_mod, dig_div, dig_mod8, dig_mm]
      · rw [dig_hi_mod _ _ hd12, dig_hi_div _ _ hd12]
        omega
      · omega
      · omega
    · intro d hd
      simp only [List.mem_cons, List.not_mem_nil, or_false] at hd
      rcases hd with h | h | h | h | h | h | h | h <;> subst h
      · have := h7 value; have := h8 (value >>> 4); omega
      · have := h7 (value >>> 4); have := h8 (addr >>> 4); omega
      · have := h7 (addr >>> 4); omega
      · have := h8 addr; omega
      · have := h7 addr; have := h8 (addr >>> 8); omega
      · have := h7 (addr >>> 8); have := h8 k; omega
      · have := h7 k; have := h8 (k >>> 4); omega
      · have := h7 (k >>> 4); have := h8 value; omega

/-- C9 witness: the round trip at the repository's own 8-letter test vector
`AAEAULPA` (addr $0B03, value $00, key $01). -/
theorem gamegenie_decode_encode_witness :
    0x0b03 < 0x8000 ∧ 0x00 < 0x100 ∧ (∀ x ∈ some 0x01, x < 0x100) ∧
    (decode (encode 0x0b03 0x00 (some 0x01) false)).map (fun p => (p.addr, p.value, p.key)) =
      some (0x0b03, 0x00, some 0x01) :=
  ⟨by norm_num, by norm_num, by simp,
    gamegenie_decode_encode 0x0b03 0x00 (some 0x01) false (by norm_num) (by norm_num)
      (by simp)⟩

end GameGenie

/-! ## Controller read protocol (src/mappers/mapper0.js)

`regWrite` (case $4016), `joy1Read` and the strobe counter translated from
src/mappers/mapper0.js.  The `Controller` class itself is not part of the
mapper; its `state` array of eight button entries is modelled as an abstract
function `buttons : Nat → Nat`. -/

namespace Joy

/-- The mapper fields driving the controller protocol:
`joy1StrobeState`, `joy2StrobeState`, `joypadLastWrite`. -/
structure Joypad where
  joy1StrobeState : Nat
  joy2StrobeState : Nat
  joypadLastWrite : Nat
deriving Repr, DecidableEq

/-- `regWrite` case `0x4016`: a falling edge of bit 0 reloads both strobe
counters; the written value is remembered in `joypadLastWrite`. -/
def regWrite4016 (jp : Joypad) (value : Nat) : Joypad :=
  let jp :=
    if value &&& 1 = 0 ∧ jp.joypadLastWrite &&& 1 = 1 then
      { jp with joy1StrobeState := 0, joy2StrobeState := 0 }
    else jp
  { jp with joypadLastWrite := value }

/-- `joy1Read()`: while the strobe is held high return button A; otherwise
return the next entry of the shift register (1 once it is exhausted) and
advance the counter, wrapping after 24 reads. -/
def joy1Read (buttons : Nat → Nat) (jp : Joypad) : Nat × Joypad :=
  if jp.joypadLastWrite &&& 1 = 1 then
    (buttons 0, jp)
  else
    let ret := if jp.joy1StrobeState < 8 then buttons jp.joy1StrobeState else 1
    let s := jp.joy1StrobeState + 1
    let s := if s = 24 then 0 else s
    (ret, { jp with joy1StrobeState := s })

/-- The value of the `(n+1)`-st consecutive `joy1Read` starting from `jp`. -/
def joy1ReadSeq (buttons : Nat → Nat) (jp : Joypad) : Nat → Nat × Joypad
  | 0 => joy1Read buttons jp
  | n + 1 => joy1ReadSeq buttons (joy1Read buttons jp).2 n

/-- A strobe: writing 1 then 0 to $4016 bit 0. -/
def strobe (jp : Joypad) : Joypad := regWrite4016 (regWrite4016 jp 1) 0

/-- After a strobe both strobe counters are zero and the last write is 0. -/
theorem strobe_eq (jp : Joypad) : strobe jp = ⟨0, 0, 0⟩ := by
  simp [strobe, regWrite4016]

/-- The read counter stays below 24. -/
theorem joy1ReadSeq_general (buttons : Nat → Nat) (t : Nat) :
    ∀ (n s : Nat), s < 24 →
      (joy1ReadSeq buttons ⟨s, t, 0⟩ n).1 =
        if (s + n) % 24 < 8 then buttons ((s + n) % 24) else 1 := by
  intro n
  induction n with
  | zero =>
    intro s hs
    simp only [joy1ReadSeq, joy1Read]
    norm_num [Nat.mod_eq_of_lt hs]
  | succ n ih =>
    intro s hs
    have hstep : (joy1Read buttons ⟨s, t, 0⟩).2 =
        ⟨if s + 1 = 24 then 0 else s + 1, t, 0⟩ := by
      simp [joy1Read]
    show (joy1ReadSeq buttons (joy1Read buttons ⟨s, t, 0⟩).2 n).1 = _
    rw [hstep]
    by_cases h24 : s + 1 = 24
    · rw [if_pos h24, ih 0 (by omega)]
      have : (s + (n + 1)) % 24 = (0 + n) % 24 := by omega
      rw [this]
    · rw [if_neg h24, ih (s + 1) (by omega)]
      have : (s + 1 + n) % 24 = (s + (n + 1)) % 24 := by omega
      rw [this]

/-- C7 (amended): after a strobe of $4016, read `n+1` returns button
`state[n]` for `n < 8` and 1 for `8 ≤ n < 24`; the strobe counter then wraps
after 24 reads, so the 24-read pattern repeats (read 25 returns button A
again rather than 1). -/
theorem joy1_reads_after_strobe (buttons : Nat → Nat) (jp : Joypad) (n : Nat) :
    (joy1ReadSeq buttons (strobe jp) n).1 =
      if n % 24 < 8 then buttons (n % 24) else 1 := by
  rw [strobe_eq]
  simpa using joy1ReadSeq_general buttons 0 n 0 (by omega)

/-- C7 counterexample: with no buttons pressed (`state[i] = 0`), the 25th
read of $4016 after a strobe — a read after the 8th — returns button A's
state 0, not 1, because `joy1StrobeState` wraps to 0 after 24 reads. -/
theorem joy1_read25_counterexample :
    (joy1ReadSeq (fun _ => 0) (strobe ⟨5, 7, 3⟩) 24).1 ≠ 1 := by decide

end Joy

/-! ## OAM DMA (src/ppu/index.js: `PPU.sramDMA`, `PPU.spriteRamWriteUpdate`)

The PPU fields the DMA touches, with the decoded per-sprite arrays.
`checkSprite0` (called by `spriteRamWriteUpdate` when sprite 0 changes) only
recomputes the sprite-0 hit coordinates; it is abstracted as a hook `chk`
writing an opaque component `spr0`. -/

namespace Oam

/-- PPU/CPU state slice for the $4014 DMA: OAM address and memory, the
decoded sprite arrays, the CPU page being copied and the CPU halt counter. -/
structure OamState (ρ : Type) where
  sramAddress : Nat
  spriteMem : Nat → Nat
  sprY : Nat → Nat
  sprTile : Nat → Nat
  sprX : Nat → Nat
  sprCol : Nat → Nat
  vertFlip : Nat → Nat
  horiFlip : Nat → Nat
  bgPriority : Nat → Nat
  spr0 : ρ
  cpuMem : Nat → Nat
  cyclesToHalt : Nat

/-- `spriteRamWriteUpdate(address, value)`: refresh the decoded per-sprite
arrays from one OAM byte; for sprite 0 also rerun `checkSprite0` (hook). -/
def spriteRamWriteUpdate (chk : OamState ρ → ρ) (address value : Nat)
    (s : OamState ρ) : OamState ρ :=
  let tIndex := address / 4
  let s := if tIndex = 0 then { s with spr0 := chk s } else s
  if address % 4 = 0 then
    { s with sprY := Function.update s.sprY tIndex value }
  else if address % 4 = 1 then
    { s with sprTile := Function.update s.sprTile tIndex value }
  else if address % 4 = 2 then
    { s with vertFlip := Function.update s.vertFlip tIndex ((value >>> 7) &&& 1),
             horiFlip := Function.update s.horiFlip tIndex ((value >>> 6) &&& 1),
             bgPriority := Function.update s.bgPriority tIndex ((value >>> 5) &&& 1),
             sprCol := Function.update s.sprCol tIndex ((value &&& 3) <<< 2) }
  else
    { s with sprX := Function.update s.sprX tIndex value }

/-- One iteration of the `sramDMA` copy loop at index `i`. -/
def dmaStep (chk : OamState ρ → ρ) (baseAddress : Nat) (s : OamState ρ) (i : Nat) :
    OamState ρ :=
  let data := s.cpuMem (baseAddress + i)
  let oamAddr := (s.sramAddress + i) &&& 0xff
  let s := { s with spriteMem := Function.update s.spriteMem oamAddr data }
  spriteRamWriteUpdate chk oamAddr data s

/-- `CPU.haltCycles(cycles)`: `cyclesToHalt += cycles`. -/
def haltCycles (cycles : Nat) (s : OamState ρ) : OamState ρ :=
  { s with cyclesToHalt := s.cyclesToHalt + cycles }

/-- `sramDMA(value)`: copy 256 bytes from CPU page `value * 0x100` into OAM
starting at the current OAM address (wrapping), then stall the CPU 513
cycles. -/
def sramDMA (chk : OamState ρ → ρ) (value : Nat) (s : OamState ρ) : OamState ρ :=
  let baseAddress := value * 0x100
  haltCycles 513 ((List.range 256).foldl (dmaStep chk baseAddress) s)

/-- `spriteRamWriteUpdate` leaves OAM memory, the OAM address, CPU memory and
the halt counter unchanged. -/
theorem spriteRamWriteUpdate_fields (chk : OamState ρ → ρ) (a v : Nat) (s : OamState ρ) :
    (spriteRamWriteUpdate chk a v s).spriteMem = s.spriteMem ∧
    (spriteRamWriteUpdate chk a v s).sramAddress = s.sramAddress ∧
    (spriteRamWriteUpdate chk a v s).cpuMem = s.cpuMem ∧
    (spriteRamWriteUpdate chk a v s).cyclesToHalt = s.cyclesToHalt := by
  simp only [spriteRamWriteUpdate]
  split_ifs <;> simp

/-- Bit masking by 0xFF is reduction mod 256. -/
theorem and_ff (x : Nat) : x &&& 0xff = x % 0x100 := by
  simpa using Nat.and_pow_two_sub_one_eq_mod x 8

/-- `haltCycles` changes only the halt counter. -/
theorem haltCycles_fields (c : Nat) (t : OamState ρ) :
    (haltCycles c t).sramAddress = t.sramAddress ∧
    (haltCycles c t).spriteMem = t.spriteMem := by
  simp [haltCycles]

/-- Effect of one copy-loop iteration on the tracked fields. -/
theorem dmaStep_fields (chk : OamState ρ → ρ) (base : Nat) (s : OamState ρ) (i : Nat) :
    (dmaStep chk base s i).sramAddress = s.sramAddress ∧
    (dmaStep chk base s i).cpuMem = s.cpuMem ∧
    (dmaStep chk base s i).cyclesToHalt = s.cyclesToHalt ∧
    (dmaStep chk base s i).spriteMem =
      Function.update s.spriteMem ((s.sramAddress + i) &&& 0xff) (s.cpuMem (base + i)) := by
  simp only [dmaStep]
  obtain ⟨h1, h2, h3, h4⟩ := spriteRamWriteUpdate_fields chk ((s.sramAddress + i) &&& 0xff)
    (s.cpuMem (base + i))
    { s with spriteMem :=
        Function.update s.spriteMem ((s.sramAddress + i) &&& 0xff) (s.cpuMem (base + i)) }
  exact ⟨h2, h3, h4, h1⟩

/-- State of the DMA copy loop after the first `n` iterations. -/
theorem dma_foldl (chk : OamState ρ → ρ) (v : Nat) (s : OamState ρ) :
    ∀ n, n ≤ 256 →
      ((List.range n).foldl (dmaStep chk (v * 0x100)) s).sramAddress = s.sramAddress ∧
      ((List.range n).foldl (dmaStep chk (v * 0x100)) s).cpuMem = s.cpuMem ∧
      ((List.range n).foldl (dmaStep chk (v * 0x100)) s).cyclesToHalt = s.cyclesToHalt ∧
      ∀ i, i < n →
        ((List.range n).foldl (dmaStep chk (v * 0x100)) s).spriteMem
          ((s.sramAddress + i) % 0x100) = s.cpuMem (v * 0x100 + i) := by
  intro n
  induction n with
  | zero => simp
  | succ n ih =>
    intro hn
    obtain ⟨hsa, hcm, hch, hmem⟩ := ih (by omega)
    rw [List.range_succ, List.foldl_append, List.foldl_cons, List.foldl_nil]
    set sn := (List.range n).foldl (dmaStep chk (v * 0x100)) s with hsn
    obtain ⟨u1, u2, u3, u4⟩ := dmaStep_fields chk (v * 0x100) sn n
    refine ⟨by rw [u1, hsa], by rw [u2, hcm], by rw [u3, hch], ?_⟩
    intro i hi
    rw [u4, and_ff, hsa, hcm]
    rcases Nat.lt_or_ge i n with hin | hin
    · rw [Function.update_noteq (by omega)]
      exact hmem i hin
    · have hieq : i = n := by omega
      subst hieq
      rw [Function.update_same]

/-- C10: a $4014 OAM DMA copies the 256 bytes of CPU page `v` into OAM
starting at the current OAM address and wrapping modulo 256, and leaves the
OAM address register `sramAddress` exactly as it was before the DMA. -/
theorem sramDMA_preserves_sramAddress (chk : OamState ρ → ρ) (v : Nat) (s : OamState ρ) :
    (sramDMA chk v s).sramAddress = s.sramAddress ∧
    ∀ i, i < 256 →
      (sramDMA chk v s).spriteMem ((s.sramAddress + i) % 0x100) =
        s.cpuMem (v * 0x100 + i) := by
  obtain ⟨hsa, hcm, hch, hmem⟩ := dma_foldl chk v s 256 (by omega)
  simp only [sramDMA, haltCycles_fields]
  exact ⟨hsa, hmem⟩

/-- A concrete OAM state for exercising the DMA theorem. -/
def oamS0 : OamState Unit :=
  ⟨5, fun _ => 0, fun _ => 0, fun _ => 0, fun _ => 0, fun _ => 0, fun _ => 0,
    fun _ => 0, fun _ => 0, (), fun a => a, 0⟩

/-- C10 witness: the DMA theorem instantiated at a concrete state, page 2,
byte 0. -/
theorem sramDMA_preserves_sramAddress_witness :
    0 < 256 ∧
    (sramDMA (fun _ => ()) 2 oamS0).spriteMem ((oamS0.sramAddress + 0) % 0x100) =
      oamS0.cpuMem (2 * 0x100 + 0) :=
  ⟨by norm_num,
    (sramDMA_preserves_sramAddress (fun _ => ()) 2 oamS0).2 0 (by norm_num)⟩

end Oam

/-! ## PPU palette mirroring and $2007 reads (src/ppu/index.js)

`cntsToAddress`, `regsToAddress`, `cntsFromAddress`, `regsFromAddress`,
`mirroredLoad`, `writeMem`, `mirroredWrite` and `vramLoad` translated from
src/ppu/index.js.  `writeMem`'s cache refreshes (`patternWrite`,
`nameTableWrite`, `attribTableWrite`, `updatePalettes`) rebuild derived
rendering state from `vramMem` and do not feed back into these functions;
they are outside this model, as are the mapper `latchAccess` calls (mapper
state only).  A $2007 write with `vramAddress ≥ $2000` dispatches to
`mirroredWrite` after the same counter-to-address synchronisation that
`vramLoad` performs. -/

namespace Pal

/-- The PPU fields involved in VRAM I/O through $2007. -/
structure PpuPal where
  vramMem : Nat → Nat
  vramMirrorTable : Nat → Nat
  openBusLatch : Nat
  vramBufferedReadValue : Nat
  vramAddress : Nat
  vramTmpAddress : Nat
  f_addrInc : Nat
  cntFV : Nat
  cntV : Nat
  cntH : Nat
  cntVT : Nat
  cntHT : Nat
  regFV : Nat
  regV : Nat
  regH : Nat
  regVT : Nat
  regHT : Nat

/-- `cntsToAddress()`: rebuild `vramAddress` from the counters. -/
def cntsToAddress (p : PpuPal) : PpuPal :=
  let b1 := ((p.cntFV &&& 7) <<< 4) ||| ((p.cntV &&& 1) <<< 3) |||
    ((p.cntH &&& 1) <<< 2) ||| ((p.cntVT >>> 3) &&& 3)
  let b2 := ((p.cntVT &&& 7) <<< 5) ||| (p.cntHT &&& 31)
  { p with vramAddress := ((b1 <<< 8) ||| b2) &&& 0x7fff }

/-- `regsToAddress()`: rebuild `vramTmpAddress` from the registers. -/
def regsToAddress (p : PpuPal) : PpuPal :=
  let b1 := ((p.regFV &&& 7) <<< 4) ||| ((p.regV &&& 1) <<< 3) |||
    ((p.regH &&& 1) <<< 2) ||| ((p.regVT >>> 3) &&& 3)
  let b2 := ((p.regVT &&& 7) <<< 5) ||| (p.regHT &&& 31)
  { p with vramTmpAddress := ((b1 <<< 8) ||| b2) &&& 0x7fff }

/-- `cntsFromAddress()`: decode the counters from `vramAddress`. -/
def cntsFromAddress (p : PpuPal) : PpuPal :=
  let address := (p.vramAddress >>> 8) &&& 0xff
  let p := { p with
    cntFV := (address >>> 4) &&& 3
    cntV := (address >>> 3) &&& 1
    cntH := (address >>> 2) &&& 1
    cntVT := (p.cntVT &&& 7) ||| ((address &&& 3) <<< 3) }
  let address := p.vramAddress &&& 0xff
  { p with
    cntVT := (p.cntVT &&& 24) ||| ((address >>> 5) &&& 7)
    cntHT := address &&& 31 }

/-- `regsFromAddress()`: decode the registers from `vramTmpAddress`. -/
def regsFromAddress (p : PpuPal) : PpuPal :=
  let address := (p.vramTmpAddress >>> 8) &&& 0xff
  let p := { p with
    regFV := (address >>> 4) &&& 7
    regV := (address >>> 3) &&& 1
    regH := (address >>> 2) &&& 1
    regVT := (p.regVT &&& 7) ||| ((address &&& 3) <<< 3) }
  let address := p.vramTmpAddress &&& 0xff
  { p with
    regVT := (p.regVT &&& 24) ||| ((address >>> 5) &&& 7)
    regHT := address &&& 31 }

/-- `mirroredLoad(address)`: read through the mirror table. -/
def mirroredLoad (p : PpuPal) (address : Nat) : Nat :=
  p.vramMem (p.vramMirrorTable address)

/-- `writeMem(address, value)`: raw VRAM write (cache refreshes omitted,
see the section comment). -/
def writeMem (address value : Nat) (p : PpuPal) : PpuPal :=
  { p with vramMem := Function.update p.vramMem address value }

/-- `mirroredWrite(address, value)`: palette writes mirror
$3F00/$04/$08/$0C with $3F10/$14/$18/$1C; everything else goes through the
mirror table, and addresses past the table throw. -/
def mirroredWrite (address value : Nat) (p : PpuPal) : Except String PpuPal :=
  if 0x3f00 ≤ address ∧ address < 0x3f20 then
    if address = 0x3f00 ∨ address = 0x3f10 then
      Except.ok (writeMem 0x3f10 value (writeMem 0x3f00 value p))
    else if address = 0x3f04 ∨ address = 0x3f14 then
      Except.ok (writeMem 0x3f14 value (writeMem 0x3f04 value p))
    else if address = 0x3f08 ∨ address = 0x3f18 then
      Except.ok (writeMem 0x3f18 value (writeMem 0x3f08 value p))
    else if address = 0x3f0c ∨ address = 0x3f1c then
      Except.ok (writeMem 0x3f1c value (writeMem 0x3f0c value p))
    else
      Except.ok (writeMem address value p)
  else
    if address < 0x8000 then
      Except.ok (writeMem (p.vramMirrorTable address) value p)
    else
      Except.error "Invalid VRAM address"

/-- `vramLoad()`: the $2007 read, returning the value and the new state.
Below $3F00 the read is buffered; in the palette region the value is
returned directly, 6 bits wide with the upper 2 bits from the open-bus
latch, and the buffer is refilled from the nametable behind the palette. -/
def vramLoad (p : PpuPal) : Nat × PpuPal :=
  let p := regsToAddress (cntsToAddress p)
  if p.vramAddress ≤ 0x3eff then
    let tmp := p.vramBufferedReadValue
    let p :=
      if p.vramAddress < 0x2000 then
        { p with vramBufferedReadValue := p.vramMem p.vramAddress }
      else
        { p with vramBufferedReadValue := mirroredLoad p p.vramAddress }
    let p := { p with vramAddress := p.vramAddress + (if p.f_addrInc = 1 then 32 else 1) }
    let p := regsFromAddress (cntsFromAddress p)
    (tmp, p)
  else
    let palIdx0 := p.vramAddress &&& 0x1f
    let palIdx := if palIdx0 &&& 0x13 = 0x10 then palIdx0 &&& 0x0f else palIdx0
    let tmp := (p.vramMem (0x3f00 + palIdx) &&& 0x3f) ||| (p.openBusLatch &&& 0xc0)
    let p := { p with vramBufferedReadValue := mirroredLoad p (p.vramAddress &&& 0x2fff) }
    let p := { p with vramAddress := p.vramAddress + (if p.f_addrInc = 1 then 32 else 1) }
    let p := regsFromAddress (cntsFromAddress p)
    (tmp, p)

/-- The counter/register address synchronisation preserves VRAM contents and
the open-bus latch, and `regsToAddress` preserves `vramAddress`. -/
theorem toAddress_fields (x : PpuPal) :
    (regsToAddress (cntsToAddress x)).vramAddress = (cntsToAddress x).vramAddress ∧
    (regsToAddress (cntsToAddress x)).vramMem = x.vramMem ∧
    (regsToAddress (cntsToAddress x)).openBusLatch = x.openBusLatch ∧
    (regsToAddress (cntsToAddress x)).f_addrInc = x.f_addrInc := by
  simp [regsToAddress, cntsToAddress]

/-- A $2007 read at a palette address returns the palette byte (with
backdrop mirroring applied to the index), 6 bits wide, with the top two bits
from the open-bus latch. -/
theorem vramLoad_palette (q : PpuPal) (a : Nat)
    (ha2 : (cntsToAddress q).vramAddress = a) (hgt : 0x3eff < a) :
    (vramLoad q).1 =
      (q.vramMem (0x3f00 +
          (if (a &&& 0x1f) &&& 0x13 = 0x10 then (a &&& 0x1f) &&& 0x0f else (a &&& 0x1f)))
        &&& 0x3f) ||| (q.openBusLatch &&& 0xc0) := by
  obtain ⟨h1, h2, h3, h4⟩ := toAddress_fields q
  have hva : (regsToAddress (cntsToAddress q)).vramAddress = a := by rw [h1, ha2]
  unfold vramLoad
  dsimp only
  rw [hva, if_neg (by omega)]
  dsimp only
  rw [h2, h3]

/-- The palette index selected by a $2007 read at $3F00/$04/$08/$0C. -/
theorem palIdx_lo (i : Nat) (hi : i = 0 ∨ i = 4 ∨ i = 8 ∨ i = 12) :
    (if ((0x3f00 + i) &&& 0x1f) &&& 0x13 = 0x10 then ((0x3f00 + i) &&& 0x1f) &&& 0x0f
      else (0x3f00 + i) &&& 0x1f) = i := by
  rcases hi with h | h | h | h <;> subst h <;> decide

/-- The palette index selected by a $2007 read at $3F10/$14/$18/$1C. -/
theorem palIdx_hi (i : Nat) (hi : i = 0 ∨ i = 4 ∨ i = 8 ∨ i = 12) :
    (if ((0x3f10 + i) &&& 0x1f) &&& 0x13 = 0x10 then ((0x3f10 + i) &&& 0x1f) &&& 0x0f
      else (0x3f10 + i) &&& 0x1f) = i := by
  rcases hi with h | h | h | h <;> subst h <;> decide

/-- A palette write at either member of a backdrop mirror pair writes both
cells of the pair. -/
theorem mirroredWrite_pair (p : PpuPal) (v i a : Nat)
    (hi : i = 0 ∨ i = 4 ∨ i = 8 ∨ i = 12)
    (haeq : a = 0x3f00 + i ∨ a = 0x3f10 + i) :
    mirroredWrite a v p =
      Except.ok (writeMem (0x3f10 + i) v (writeMem (0x3f00 + i) v p)) := by
  rcases hi with h | h | h | h <;> subst h <;> rcases haeq with h2 | h2 <;> subst h2 <;>
    norm_num [mirroredWrite]

/-- C5 (amended): writing `v` through the PPU to $3F10/$14/$18/$1C stores `v`
in both the mirror pair's palette cells, and a subsequent $2007 read of the
corresponding $3F00/$04/$08/$0C (and symmetrically in the other direction)
returns `v`'s low six bits, with bits 7-6 coming from the PPU open-bus
latch — so it returns `v` itself exactly when `v < 0x40` and the latch's top
bits are clear. -/
theorem palette_mirror_readback (p q : PpuPal) (v i : Nat) (flip : Bool)
    (hi : i = 0 ∨ i = 4 ∨ i = 8 ∨ i = 12)
    (hm : (mirroredWrite (if flip then 0x3f00 + i else 0x3f10 + i) v p).map PpuPal.vramMem =
      Except.ok q.vramMem)
    (ha : (cntsToAddress q).vramAddress = (if flip then 0x3f10 + i else 0x3f00 + i)) :
    (vramLoad q).1 = (v &&& 0x3f) ||| (q.openBusLatch &&& 0xc0) := by
  have hwa : (if flip then 0x3f00 + i else 0x3f10 + i) = 0x3f00 + i ∨
      (if flip then 0x3f00 + i else 0x3f10 + i) = 0x3f10 + i := by
    cases flip <;> simp
  rw [mirroredWrite_pair p v i _ hi hwa] at hm
  simp only [Except.map, writeMem, Except.ok.injEq] at hm
  have hupd : q.vramMem (0x3f00 + i) = v := by
    rw [← hm, Function.update_noteq (by omega), Function.update_same]
  cases flip
  · rw [if_neg Bool.false_ne_true] at ha
    rw [vramLoad_palette q (0x3f00 + i) ha (by omega), palIdx_lo i hi, hupd]
  · rw [if_pos rfl] at ha
    rw [vramLoad_palette q (0x3f10 + i) ha (by omega), palIdx_hi i hi, hupd]

/-- A concrete PPU state: zeroed VRAM, identity mirror table, counters
encoding VRAM address $3F00. -/
def pal0 : PpuPal :=
  ⟨fun _ => 0, fun a => a, 0, 0, 0, 0, 0, 3, 1, 1, 24, 0, 0, 0, 0, 0, 0⟩

/-- C5 counterexample: write $FF through the PPU to $3F10, then read $3F00
via $2007 (counters encode $3F00, open-bus latch 0): the read returns $3F,
not the written value $FF — palette reads are six bits wide. -/
theorem palette_mirror_counterexample :
    (mirroredWrite 0x3f10 0xff pal0).toOption.map (fun p1 => (vramLoad p1).1) = some 0x3f ∧
    (0x3f : Nat) ≠ 0xff := by
  constructor
  · decide
  · decide

/-- `pal0` after the palette write of $FF at $3F10 (and its $3F00 mirror). -/
def palQ1 : PpuPal :=
  { pal0 with vramMem := Function.update (Function.update pal0.vramMem 0x3f00 0xff) 0x3f10 0xff }

/-- C5 witness: the amended read-back theorem at a concrete state. -/
theorem palette_mirror_readback_witness :
    ((0 : Nat) = 0 ∨ (0 : Nat) = 4 ∨ (0 : Nat) = 8 ∨ (0 : Nat) = 12) ∧
    (vramLoad palQ1).1 = (0xff &&& 0x3f) ||| (palQ1.openBusLatch &&& 0xc0) := by
  refine ⟨Or.inl rfl, ?_⟩
  exact palette_mirror_readback pal0 palQ1 0xff 0 false (Or.inl rfl) rfl (by decide)

end Pal

namespace Papu

/-! PAPU frame counter (src/src/ppu/index.js). Channel, DMC and audio
sampling state is abstracted into a type `χ` acted on by uninterpreted
hooks (`ChanOps`): every part of `clockQuarterFrame` / `clockHalfFrame` /
channel register writes / channel timer clocking reads and writes only
that state, so modelling them as opaque functions on `χ` is faithful.
The CPU IRQ line (`requestIrq`) is outside the model. -/

/-- `FRAME_STEPS_4`. -/
def FRAME_STEPS_4 : List Int := [7457, 14913, 22371, 29829]

/-- `FRAME_STEPS_5`. -/
def FRAME_STEPS_5 : List Int := [7457, 14913, 22371, 29829, 37281]

/-- `FRAME_PERIOD_4`. -/
def FRAME_PERIOD_4 : Int := 29830

/-- `FRAME_PERIOD_5`. -/
def FRAME_PERIOD_5 : Int := 37282

/-- The PAPU frame-counter state (`chan` is the abstract channel state). -/
structure PAPU (χ : Type) where
  countSequence : Nat
  frameCycleCounter : Int
  frameStep : Nat
  frameIrqEnabled : Bool
  frameIrqActive : Bool
  chan : χ

/-- Uninterpreted channel state transitions and observations. -/
structure ChanOps (χ : Type) where
  quarter : χ → χ
  half : χ → χ
  chanWrite : Nat → Nat → χ → χ
  clockTimers : Int → χ → χ
  sq1Len : χ → Bool
  sq2Len : χ → Bool
  triLen : χ → Bool
  noiseLen : χ → Bool
  dmcLen : χ → Bool
  dmcIrq : χ → Bool

variable {χ : Type}

/-- `clockQuarterFrame()`: clock envelopes and the linear counter. -/
def clockQuarterFrame (ops : ChanOps χ) (s : PAPU χ) : PAPU χ :=
  { s with chan := ops.quarter s.chan }

/-- `clockHalfFrame()`: clock length counters and sweep units. -/
def clockHalfFrame (ops : ChanOps χ) (s : PAPU χ) : PAPU χ :=
  { s with chan := ops.half s.chan }

/-- `fireFrameStep(step)`. -/
def fireFrameStep (ops : ChanOps χ) (step : Nat) (s : PAPU χ) : PAPU χ :=
  if s.countSequence = 0 then
    match step with
    | 0 => clockQuarterFrame ops s
    | 1 => clockHalfFrame ops (clockQuarterFrame ops s)
    | 2 => clockQuarterFrame ops s
    | 3 =>
      let s := clockHalfFrame ops (clockQuarterFrame ops s)
      if s.frameIrqEnabled then { s with frameIrqActive := true } else s
    | _ => s
  else
    match step with
    | 0 => clockQuarterFrame ops s
    | 1 => clockHalfFrame ops (clockQuarterFrame ops s)
    | 2 => clockQuarterFrame ops s
    | 4 => clockHalfFrame ops (clockQuarterFrame ops s)
    | _ => s

/-- The step table selected by `countSequence`. -/
def frameSteps (s : PAPU χ) : List Int :=
  if s.countSequence = 0 then FRAME_STEPS_4 else FRAME_STEPS_5

/-- The period selected by `countSequence`. -/
def framePeriod (s : PAPU χ) : Int :=
  if s.countSequence = 0 then FRAME_PERIOD_4 else FRAME_PERIOD_5

/-- The `while (frameCycleCounter >= steps[frameStep])` loop shared by
`clockFrameCounter` and `advanceFrameCounter`. `fuel` bounds the number of
iterations of the source's unbounded while loop; all invariants below hold
for every fuel value. -/
def frameStepLoop (ops : ChanOps χ) : Nat → PAPU χ → PAPU χ
  | 0, s => s
  | fuel + 1, s =>
    if s.frameStep < (frameSteps s).length ∧
        (frameSteps s).getD s.frameStep 0 ≤ s.frameCycleCounter then
      let s1 := fireFrameStep ops s.frameStep s
      let s2 :=
        if (frameSteps s).length ≤ s.frameStep + 1 then
          { s1 with frameStep := 0,
                    frameCycleCounter := s1.frameCycleCounter - framePeriod s1 }
        else
          { s1 with frameStep := s.frameStep + 1 }
      frameStepLoop ops fuel s2
    else s

/-- `clockFrameCounter(nCycles, frameCounterAlreadyAdvanced)`. -/
def clockFrameCounter (ops : ChanOps χ) (fuel : Nat)
    (nCycles frameCounterAlreadyAdvanced : Int) (s : PAPU χ) : PAPU χ :=
  let frameCounterCycles := nCycles - frameCounterAlreadyAdvanced
  let s := { s with chan := ops.clockTimers nCycles s.chan }
  let s := { s with frameCycleCounter := s.frameCycleCounter + frameCounterCycles }
  frameStepLoop ops fuel s

/-- `advanceFrameCounter(nCycles)`. -/
def advanceFrameCounter (ops : ChanOps χ) (fuel : Nat) (nCycles : Int)
    (s : PAPU χ) : PAPU χ :=
  let s := { s with frameCycleCounter := s.frameCycleCounter + nCycles }
  frameStepLoop ops fuel s

/-- `readReg(address)`. -/
def readReg (ops : ChanOps χ) (dataBus : Nat) (s : PAPU χ) : Nat × PAPU χ :=
  let tmp := (ops.sq1Len s.chan).toNat
    ||| ((ops.sq2Len s.chan).toNat <<< 1)
    ||| ((ops.triLen s.chan).toNat <<< 2)
    ||| ((ops.noiseLen s.chan).toNat <<< 3)
    ||| ((ops.dmcLen s.chan).toNat <<< 4)
    ||| (dataBus &&& 0x20)
    ||| ((if s.frameIrqActive then 1 else 0) <<< 6)
    ||| ((ops.dmcIrq s.chan).toNat <<< 7)
  (tmp &&& 0xff, { s with frameIrqActive := false })

/-- `writeReg(address, value)`. -/
def writeReg (ops : ChanOps χ) (address value : Nat) (s : PAPU χ) : PAPU χ :=
  if (0x4000 ≤ address ∧ address < 0x4014) ∨ address = 0x4015 then
    { s with chan := ops.chanWrite address value s.chan }
  else if address = 0x4017 then
    let s := { s with countSequence := (value >>> 7) &&& 1,
                      frameCycleCounter := -6, frameStep := 0 }
    let s :=
      if value &&& 0x40 ≠ 0 then
        { s with frameIrqEnabled := false, frameIrqActive := false }
      else
        { s with frameIrqEnabled := true }
    if s.countSequence = 1 then clockHalfFrame ops (clockQuarterFrame ops s) else s
  else s

/-- One observable PAPU interaction. -/
inductive ApuOp where
  | write (address value : Nat)
  | read4015 (dataBus : Nat)
  | clock (fuel : Nat) (nCycles alreadyAdvanced : Int)

/-- Run one interaction. -/
def applyOp (ops : ChanOps χ) (s : PAPU χ) : ApuOp → PAPU χ
  | .write a v => writeReg ops a v s
  | .read4015 b => (readReg ops b s).2
  | .clock fuel n adv => clockFrameCounter ops fuel n adv s

/-- The interactions that end the IRQ-inhibit regime. -/
def clearsInhibit : ApuOp → Prop
  | .write a v => a = 0x4017 ∧ v &&& 0x40 = 0
  | _ => False

theorem fireFrameStep_inhibited (ops : ChanOps χ) (k : Nat) (s : PAPU χ)
    (he : s.frameIrqEnabled = false) (ha : s.frameIrqActive = false) :
    (fireFrameStep ops k s).frameIrqEnabled = false ∧
    (fireFrameStep ops k s).frameIrqActive = false := by
  unfold fireFrameStep clockQuarterFrame clockHalfFrame
  split <;> split <;> simp_all

theorem frameStepLoop_inhibited (ops : ChanOps χ) (fuel : Nat) :
    ∀ s : PAPU χ, s.frameIrqEnabled = false → s.frameIrqActive = false →
    (frameStepLoop ops fuel s).frameIrqEnabled = false ∧
    (frameStepLoop ops fuel s).frameIrqActive = false := by
  induction fuel with
  | zero => intro s he ha; exact ⟨he, ha⟩
  | succ n ih =>
    intro s he ha
    unfold frameStepLoop
    split
    · obtain ⟨he1, ha1⟩ := fireFrameStep_inhibited ops s.frameStep s he ha
      split <;> exact ih _ (by simp [he1]) (by simp [ha1])
    · exact ⟨he, ha⟩

theorem and64 (a b : Nat) (h1 : a &&& 64 = 0) (h2 : b &&& 64 = 0) :
    (a ||| b) &&& 64 = 0 := by
  rw [Nat.and_distrib_right, h1, h2]
  decide

theorem readReg_bit6 (ops : ChanOps χ) (bus : Nat) (s : PAPU χ)
    (ha : s.frameIrqActive = false) :
    (readReg ops bus s).1 &&& 0x40 = 0 := by
  unfold readReg
  dsimp only
  rw [ha, Nat.and_assoc, (by decide : ((0xff : Nat) &&& 0x40) = 0x40)]
  refine and64 _ _ (and64 _ _ (and64 _ _ (and64 _ _ (and64 _ _ (and64 _ _
    (and64 _ _ ?_ ?_) ?_) ?_) ?_) ?_) ?_) ?_
  · cases ops.sq1Len s.chan <;> decide
  · cases ops.sq2Len s.chan <;> decide
  · cases ops.triLen s.chan <;> decide
  · cases ops.noiseLen s.chan <;> decide
  · cases ops.dmcLen s.chan <;> decide
  · rw [Nat.and_assoc, (by decide : ((0x20 : Nat) &&& 0x40) = 0), Nat.and_zero]
  · decide
  · cases ops.dmcIrq s.chan <;> decide

theorem writeReg_4017_inhibit (ops : ChanOps χ) (v : Nat) (s : PAPU χ)
    (hv : v &&& 0x40 ≠ 0) :
    (writeReg ops 0x4017 v s).frameIrqEnabled = false ∧
    (writeReg ops 0x4017 v s).frameIrqActive = false := by
  unfold writeReg clockQuarterFrame clockHalfFrame
  rw [if_neg (by decide), if_pos rfl]
  dsimp only
  rw [if_pos hv]
  split <;> simp

theorem applyOp_inhibited (ops : ChanOps χ) (op : ApuOp) (s : PAPU χ)
    (hop : ¬ clearsInhibit op)
    (he : s.frameIrqEnabled = false) (ha : s.frameIrqActive = false) :
    (applyOp ops s op).frameIrqEnabled = false ∧
    (applyOp ops s op).frameIrqActive = false := by
  cases op with
  | write a v =>
    simp only [applyOp]
    by_cases h17 : a = 0x4017
    · subst h17
      exact writeReg_4017_inhibit ops v s fun h => hop ⟨rfl, h⟩
    · simp only [writeReg, if_neg h17]
      split
      · simp [he, ha]
      · exact ⟨he, ha⟩
  | read4015 b =>
    simp [applyOp, readReg, he]
  | clock fuel n adv =>
    simp only [applyOp]
    unfold clockFrameCounter
    exact frameStepLoop_inhibited ops fuel _ (by simp [he]) (by simp [ha])

theorem foldl_inhibited (ops : ChanOps χ) (l : List ApuOp) :
    ∀ s : PAPU χ, (∀ op ∈ l, ¬ clearsInhibit op) →
    s.frameIrqEnabled = false → s.frameIrqActive = false →
    (l.foldl (applyOp ops) s).frameIrqEnabled = false ∧
    (l.foldl (applyOp ops) s).frameIrqActive = false := by
  induction l with
  | nil => intro s _ he ha; exact ⟨he, ha⟩
  | cons op t ih =>
    intro s hl he ha
    obtain ⟨he1, ha1⟩ := applyOp_inhibited ops op s (hl op (by simp)) he ha
    exact ih _ (fun o ho => hl o (by simp [ho])) he1 ha1

/-- C4: after a write to $4017 with bit 6 set, `frameIrqActive` is false and
stays false across every sequence of PAPU interactions (register writes,
$4015 reads, frame-counter clocking) that contains no $4017 write with bit 6
clear, and every $4015 read of such a state returns bit 6 = 0. -/
theorem frame_irq_inhibit (ops : ChanOps χ) (s : PAPU χ) (v bus : Nat)
    (hv : v &&& 0x40 ≠ 0) (l : List ApuOp)
    (hl : ∀ op ∈ l, ¬ clearsInhibit op) :
    (l.foldl (applyOp ops) (writeReg ops 0x4017 v s)).frameIrqActive = false ∧
    (readReg ops bus (l.foldl (applyOp ops) (writeReg ops 0x4017 v s))).1 &&& 0x40 = 0 := by
  obtain ⟨he0, ha0⟩ := writeReg_4017_inhibit ops v s hv
  obtain ⟨he, ha⟩ := foldl_inhibited ops l _ hl he0 ha0
  exact ⟨ha, readReg_bit6 ops bus _ ha⟩

/-- Trivial channel hooks on a unit channel state. -/
def unitOps : ChanOps Unit :=
  ⟨id, id, fun _ _ c => c, fun _ c => c,
   fun _ => false, fun _ => false, fun _ => false,
   fun _ => false, fun _ => false, fun _ => false⟩

/-- A PAPU state with the frame IRQ enabled and pending. -/
def apu0 : PAPU Unit := ⟨0, 0, 0, true, true, ()⟩

/-- An interaction list with no $4017 write: a full 4-step period of
clocking, then a $4015 read. -/
def inhibitOpsList : List ApuOp := [ApuOp.clock 20 29830 0, ApuOp.read4015 0]

/-- C4 witness: the inhibit theorem at a concrete state and op list. -/
theorem frame_irq_inhibit_witness :
    ((0x40 : Nat) &&& 0x40 ≠ 0) ∧
    (inhibitOpsList.foldl (applyOp unitOps)
      (writeReg unitOps 0x4017 0x40 apu0)).frameIrqActive = false ∧
    (readReg unitOps 0 (inhibitOpsList.foldl (applyOp unitOps)
      (writeReg unitOps 0x4017 0x40 apu0))).1 &&& 0x40 = 0 :=
  ⟨by decide, frame_irq_inhibit unitOps apu0 0x40 0 (by decide) inhibitOpsList
    (by intro op h; fin_cases h <;> simp [clearsInhibit])⟩

/-- `Mapper0.regLoad` $4015 case: the read goes straight to
`papu.readReg(address)` with no APU catch-up beforehand. -/
def regLoad4015 (ops : ChanOps χ) (dataBus : Nat) (s : PAPU χ) : Nat × PAPU χ :=
  readReg ops dataBus s

/-- Modelled from the spec: before any read of $4015 the CPU invokes
`apuCatchUp()`, advancing only the APU frame counter by `instrBusCycles`
CPU cycles, then the read itself is performed. -/
def regLoad4015_spec (ops : ChanOps χ) (fuel : Nat) (instrBusCycles : Int)
    (dataBus : Nat) (s : PAPU χ) : Nat × PAPU χ :=
  readReg ops dataBus (advanceFrameCounter ops fuel instrBusCycles s)

/-- A 4-step-mode PAPU state one cycle before frame step 3 fires. -/
def apuPre : PAPU Unit := ⟨0, 29828, 3, true, false, ()⟩

/-- C3: the code reads $4015 without any APU catch-up, diverging from the
spec: in 4-step mode at `frameCycleCounter = 29828`, `frameStep = 3`, with
the frame IRQ enabled and 4 bus cycles already consumed by the current
instruction, the spec-modelled read (catch up by `instrBusCycles = 4`, which
fires step 3 and sets `frameIrqActive`) returns $40, while the code's read
returns $00. -/
theorem apu_catchup_divergence :
    (regLoad4015 unitOps 0 apuPre).1 = 0 ∧
    (regLoad4015_spec unitOps 8 4 0 apuPre).1 = 0x40 ∧
    (regLoad4015 unitOps 0 apuPre).1 ≠ (regLoad4015_spec unitOps 8 4 0 apuPre).1 := by
  decide

end Papu

namespace Bus

/-! CPU bus primitives (src/src/tile.js). Console state outside the CPU
core — the 2KB internal RAM array, mapper, cartridge, PPU and APU — is
abstracted into a type `σ` acted on by uninterpreted hooks (`ConsoleOps`):
none of the source code behind those hooks (`this.mem`, `mmap.load`,
`mmap.write`, `loadFromCartridge`, `_ppuCatchUp`) ever assigns
`cpu.dataBus` (mapper reads only observe it for open bus), so giving the
hooks no access to the `dataBus` field is faithful. Each bus cycle the CPU
performs is logged as a trace record carrying the address, the byte driven
on the bus, and the value of `dataBus` immediately after that cycle's
source statements complete. -/

/-- One CPU bus cycle: a read or a write of `byte` at `addr`, with
`busAfter` the value of the CPU `dataBus` field immediately after the
cycle. -/
inductive BusCyc where
  | rd (addr byte busAfter : Nat)
  | wr (addr byte busAfter : Nat)
  deriving DecidableEq

/-- The CPU-core state: the open-bus byte, the stack pointer, the
per-instruction bus-cycle counter, the shifter flags, and the abstract
console state. -/
structure Cpu (σ : Type) where
  dataBus : Nat
  REG_SP : Nat
  instrBusCycles : Nat
  F_CARRY : Nat
  F_SIGN : Nat
  F_ZERO : Nat
  console : σ

/-- Uninterpreted console transitions: internal RAM (`this.mem`), mapper
loads and writes, cartridge loads (with Game Genie), PPU catch-up. Loads
observe the current `dataBus` (open bus) but cannot assign it. -/
structure ConsoleOps (σ : Type) where
  ramRead : σ → Nat → Nat
  ramWrite : Nat → Nat → σ → σ
  cartLoad : Nat → Nat → σ → Nat × σ
  mapLoad : Nat → Nat → σ → Nat × σ
  mapWrite : Nat → Nat → σ → σ
  ppuCatchUp : Nat → σ → σ

variable {σ : Type}

/-- `load(addr)`: one bus read cycle, with PPU catch-up before PPU register
reads. -/
def load (os : ConsoleOps σ) (addr : Nat) (s : Cpu σ) : Nat × Cpu σ × List BusCyc :=
  let s := if 0x2000 ≤ addr ∧ addr < 0x4000 then
      { s with console := os.ppuCatchUp s.instrBusCycles s.console } else s
  if addr < 0x2000 then
    let s := { s with dataBus := os.ramRead s.console (addr &&& 0x7ff) }
    let s := { s with instrBusCycles := s.instrBusCycles + 1 }
    (s.dataBus, s, [.rd addr (os.ramRead s.console (addr &&& 0x7ff)) s.dataBus])
  else
    let bc := os.cartLoad addr s.dataBus s.console
    let s := { s with dataBus := bc.1, console := bc.2 }
    let s := { s with instrBusCycles := s.instrBusCycles + 1 }
    (s.dataBus, s, [.rd addr bc.1 s.dataBus])

/-- `load16bit(addr)`: two bus read cycles, low byte then high byte; the
low path masks each address with `& 0x7ff` and is taken for
`addr < 0x1fff`. -/
def load16bit (os : ConsoleOps σ) (addr : Nat) (s : Cpu σ) :
    Nat × Cpu σ × List BusCyc :=
  if addr < 0x1fff then
    let s1 := { s with dataBus := os.ramRead s.console (addr &&& 0x7ff) }
    let lo := s1.dataBus
    let s2 := { s1 with dataBus := os.ramRead s1.console ((addr + 1) &&& 0x7ff) }
    let s3 := { s2 with instrBusCycles := s2.instrBusCycles + 2 }
    (lo ||| (s3.dataBus <<< 8), s3,
      [.rd addr (os.ramRead s.console (addr &&& 0x7ff)) s1.dataBus,
       .rd (addr + 1) (os.ramRead s1.console ((addr + 1) &&& 0x7ff)) s2.dataBus])
  else
    let bc1 := os.cartLoad addr s.dataBus s.console
    let s1 := { s with dataBus := bc1.1, console := bc1.2 }
    let lo := s1.dataBus
    let bc2 := os.cartLoad (addr + 1) s1.dataBus s1.console
    let s2 := { s1 with dataBus := bc2.1, console := bc2.2 }
    let s3 := { s2 with instrBusCycles := s2.instrBusCycles + 2 }
    (lo ||| (s3.dataBus <<< 8), s3,
      [.rd addr bc1.1 s1.dataBus, .rd (addr + 1) bc2.1 s2.dataBus])

/-- `write(addr, val)`: one bus write cycle; `dataBus` is driven first,
then PPU catch-up for PPU registers, then the write lands in internal RAM
(below $2000) or goes through the mapper. -/
def write (os : ConsoleOps σ) (addr val : Nat) (s : Cpu σ) :
    Cpu σ × List BusCyc :=
  let s := { s with dataBus := val }
  let s := if 0x2000 ≤ addr ∧ addr < 0x4000 then
      { s with console := os.ppuCatchUp s.instrBusCycles s.console } else s
  let s :=
    if addr < 0x2000 then { s with console := os.ramWrite (addr &&& 0x7ff) val s.console }
    else { s with console := os.mapWrite addr val s.console }
  let s := { s with instrBusCycles := s.instrBusCycles + 1 }
  (s, [.wr addr val s.dataBus])

/-- `push(value)`: drive `dataBus`, write through the mapper at
`REG_SP | 0x100`, decrement and wrap the stack pointer. -/
def push (os : ConsoleOps σ) (value : Nat) (s : Cpu σ) : Cpu σ × List BusCyc :=
  let s := { s with dataBus := value }
  let a := s.REG_SP ||| 0x100
  let s := { s with console := os.mapWrite a value s.console }
  let s := { s with REG_SP := (s.REG_SP + 255) &&& 0xff }
  let s := { s with instrBusCycles := s.instrBusCycles + 1 }
  (s, [.wr a value s.dataBus])

/-- `pull()`: increment and wrap the stack pointer, then read through the
mapper at `0x100 | REG_SP`. -/
def pull (os : ConsoleOps σ) (s : Cpu σ) : Nat × Cpu σ × List BusCyc :=
  let s := { s with REG_SP := (s.REG_SP + 1) &&& 0xff }
  let bc := os.mapLoad (0x100 ||| s.REG_SP) s.dataBus s.console
  let s := { s with dataBus := bc.1, console := bc.2 }
  let s := { s with instrBusCycles := s.instrBusCycles + 1 }
  (s.dataBus, s, [.rd (0x100 ||| s.REG_SP) bc.1 s.dataBus])

/-- The opcode fetch at the top of `emulate()`:
`opcode = loadFromCartridge(REG_PC + 1); dataBus = opcode;
instrBusCycles = 1`. -/
def opcodeFetch (os : ConsoleOps σ) (pc : Nat) (s : Cpu σ) :
    Nat × Cpu σ × List BusCyc :=
  let bc := os.cartLoad (pc + 1) s.dataBus s.console
  let s := { s with dataBus := bc.1, console := bc.2 }
  let s := { s with instrBusCycles := 1 }
  (s.dataBus, s, [.rd (pc + 1) bc.1 s.dataBus])

/-- The interrupt vector fetch pair shared by `doNonMaskableInterrupt`,
`doResetInterrupt` and `doIrq`: two `loadFromCartridge` reads, each
assigned to `dataBus`, combined into `REG_PC_NEW`. Returns the new PC. -/
def fetchVector (os : ConsoleOps σ) (va : Nat) (s : Cpu σ) :
    Nat × Cpu σ × List BusCyc :=
  let bc1 := os.cartLoad va s.dataBus s.console
  let s1 := { s with dataBus := bc1.1, console := bc1.2 }
  let lo := s1.dataBus
  let bc2 := os.cartLoad (va + 1) s1.dataBus s1.console
  let s2 := { s1 with dataBus := bc2.1, console := bc2.2 }
  (lo ||| (s2.dataBus <<< 8), s2,
    [.rd va bc1.1 s1.dataBus, .rd (va + 1) bc2.1 s2.dataBus])

/-- `emulate()` case 28 (JSR): push the return address high then low, then
fetch the target's high byte as the last cycle, driving `dataBus`. -/
def jsrCase (os : ConsoleOps σ) (pc opaddr : Nat) (s : Cpu σ) :
    Cpu σ × List BusCyc :=
  let (s, t1) := push os ((pc >>> 8) &&& 255) s
  let (s, t2) := push os (pc &&& 255) s
  let r := load os (opaddr + 3) s
  let s := { r.2.1 with dataBus := r.1 }
  (s, t1 ++ t2 ++ r.2.2)

/-- `emulate()` case 2 (ASL) memory-operand path — the read-modify-write
pattern: optional dummy read for indexed modes without page crossing, read
the value, write the original back, write the shifted value. -/
def aslRMW (os : ConsoleOps σ) (cycleAdd addrMode addr : Nat) (s : Cpu σ) :
    Cpu σ × List BusCyc :=
  let d := if cycleAdd = 0 ∧ (addrMode = 8 ∨ addrMode = 9 ∨ addrMode = 11)
    then let r := load os addr s; (r.2.1, r.2.2) else (s, [])
  let r1 := load os addr d.1
  let temp := r1.1
  let w1 := write os addr temp r1.2.1
  let s2 := { w1.1 with F_CARRY := (temp >>> 7) &&& 1 }
  let temp2 := (temp <<< 1) &&& 255
  let s3 := { s2 with F_SIGN := (temp2 >>> 7) &&& 1, F_ZERO := temp2 }
  let w2 := write os addr temp2 s3
  (w2.1, d.2 ++ r1.2.2 ++ w1.2 ++ w2.2)

/-- A cycle record is coherent when `dataBus` right after the cycle equals
the byte the cycle read or wrote. -/
def busOk : BusCyc → Prop
  | .rd _ byte busAfter => busAfter = byte
  | .wr _ byte busAfter => busAfter = byte

theorem load_busOk (os : ConsoleOps σ) (addr : Nat) (s : Cpu σ) :
    ∀ c ∈ (load os addr s).2.2, busOk c := by
  unfold load
  split <;> split <;> intro c hc <;> simp only [List.mem_singleton] at hc <;>
    subst hc <;> rfl

theorem load16bit_busOk (os : ConsoleOps σ) (addr : Nat) (s : Cpu σ) :
    ∀ c ∈ (load16bit os addr s).2.2, busOk c := by
  unfold load16bit
  split <;> intro c hc <;>
    simp only [List.mem_cons, List.not_mem_nil, or_false] at hc <;>
    rcases hc with rfl | rfl <;> rfl

theorem write_busOk (os : ConsoleOps σ) (addr val : Nat) (s : Cpu σ) :
    ∀ c ∈ (write os addr val s).2, busOk c := by
  unfold write
  intro c hc
  simp only [List.mem_singleton] at hc
  subst hc
  split <;> split <;> rfl

theorem push_busOk (os : ConsoleOps σ) (value : Nat) (s : Cpu σ) :
    ∀ c ∈ (push os value s).2, busOk c := by
  unfold push
  intro c hc
  simp only [List.mem_singleton] at hc
  subst hc
  rfl

theorem pull_busOk (os : ConsoleOps σ) (s : Cpu σ) :
    ∀ c ∈ (pull os s).2.2, busOk c := by
  unfold pull
  intro c hc
  simp only [List.mem_singleton] at hc
  subst hc
  rfl

theorem opcodeFetch_busOk (os : ConsoleOps σ) (pc : Nat) (s : Cpu σ) :
    ∀ c ∈ (opcodeFetch os pc s).2.2, busOk c := by
  unfold opcodeFetch
  intro c hc
  simp only [List.mem_singleton] at hc
  subst hc
  rfl

theorem fetchVector_busOk (os : ConsoleOps σ) (va : Nat) (s : Cpu σ) :
    ∀ c ∈ (fetchVector os va s).2.2, busOk c := by
  unfold fetchVector
  intro c hc
  simp only [List.mem_cons, List.not_mem_nil, or_false] at hc
  rcases hc with rfl | rfl <;> rfl

theorem jsrCase_busOk (os : ConsoleOps σ) (pc opaddr : Nat) (s : Cpu σ) :
    ∀ c ∈ (jsrCase os pc opaddr s).2, busOk c := by
  unfold jsrCase
  intro c hc
  simp only [List.mem_append] at hc
  rcases hc with (hc | hc) | hc
  · exact push_busOk os _ s c hc
  · exact push_busOk os _ _ c hc
  · exact load_busOk os _ _ c hc

/-- C1: after every CPU bus cycle — loads (operand, dummy and data reads),
16-bit loads, writes, stack pushes and pulls, the opcode fetch, interrupt
vector fetches and the JSR target-high fetch — the `dataBus` field equals
the byte that cycle read or wrote. -/
theorem dataBus_tracks_every_cycle (os : ConsoleOps σ) (addr val pc opaddr va : Nat)
    (s : Cpu σ) :
    (∀ c ∈ (load os addr s).2.2, busOk c) ∧
    (∀ c ∈ (load16bit os addr s).2.2, busOk c) ∧
    (∀ c ∈ (write os addr val s).2, busOk c) ∧
    (∀ c ∈ (push os val s).2, busOk c) ∧
    (∀ c ∈ (pull os s).2.2, busOk c) ∧
    (∀ c ∈ (opcodeFetch os pc s).2.2, busOk c) ∧
    (∀ c ∈ (fetchVector os va s).2.2, busOk c) ∧
    (∀ c ∈ (jsrCase os pc opaddr s).2, busOk c) :=
  ⟨load_busOk os addr s, load16bit_busOk os addr s, write_busOk os addr val s,
   push_busOk os val s, pull_busOk os s, opcodeFetch_busOk os pc s,
   fetchVector_busOk os va s, jsrCase_busOk os pc opaddr s⟩

/-- A trace has the read-modify-write shape at `addr`: an optional dummy
read at `addr`, then a read of a value `v`, a write of the unmodified `v`
back, and a write of the shifted value — each read and write record showing
`dataBus = byte` right after its cycle. -/
def rmwShape (t : List BusCyc) (addr : Nat) : Prop :=
  ∃ pre v, (pre = [] ∨ ∃ d b, pre = [BusCyc.rd addr d b]) ∧
    t = pre ++ [BusCyc.rd addr v v, BusCyc.wr addr v v,
      BusCyc.wr addr ((v <<< 1) &&& 255) ((v <<< 1) &&& 255)]

theorem load_trace (os : ConsoleOps σ) (addr : Nat) (s : Cpu σ) :
    ∃ v, (load os addr s).2.2 = [BusCyc.rd addr v v] ∧ (load os addr s).1 = v := by
  unfold load
  split <;> split <;> exact ⟨_, rfl, rfl⟩

theorem write_trace (os : ConsoleOps σ) (addr val : Nat) (s : Cpu σ) :
    (write os addr val s).2 = [BusCyc.wr addr val val] := by
  unfold write
  split <;> split <;> rfl

theorem aslRMW_shape (os : ConsoleOps σ) (cycleAdd addrMode addr : Nat) (s : Cpu σ) :
    rmwShape (aslRMW os cycleAdd addrMode addr s).2 addr := by
  unfold aslRMW
  by_cases hd : cycleAdd = 0 ∧ (addrMode = 8 ∨ addrMode = 9 ∨ addrMode = 11)
  · rw [if_pos hd]
    dsimp only
    obtain ⟨d0, hT0, hv0⟩ := load_trace os addr s
    obtain ⟨v1, hT1, hv1⟩ := load_trace os addr (load os addr s).2.1
    rw [hT0, hT1, write_trace, write_trace, hv1]
    exact ⟨[BusCyc.rd addr d0 d0], v1, Or.inr ⟨d0, d0, rfl⟩, by simp⟩
  · rw [if_neg hd]
    dsimp only
    obtain ⟨v1, hT1, hv1⟩ := load_trace os addr s
    rw [hT1, write_trace, write_trace, hv1]
    exact ⟨[], v1, Or.inl rfl, by simp⟩

theorem aslRMW_busOk (os : ConsoleOps σ) (cycleAdd addrMode addr : Nat) (s : Cpu σ) :
    ∀ c ∈ (aslRMW os cycleAdd addrMode addr s).2, busOk c := by
  unfold aslRMW
  split
  · dsimp only
    intro c hc
    simp only [List.mem_append] at hc
    rcases hc with ((hc | hc) | hc) | hc
    · exact load_busOk os addr s c hc
    · exact load_busOk os addr _ c hc
    · exact write_busOk os addr _ _ c hc
    · exact write_busOk os addr _ _ c hc
  · dsimp only
    intro c hc
    simp only [List.mem_append, List.not_mem_nil, false_or] at hc
    rcases hc with (hc | hc) | hc
    · exact load_busOk os addr s c hc
    · exact write_busOk os addr _ _ c hc
    · exact write_busOk os addr _ _ c hc

/-- C6 (amended): the ASL memory path — the pattern shared by all twelve
RMW instruction cases — performs, at the effective address, an optional
dummy read (for indexed modes without page crossing), the read of the
original value, a bus write of the unmodified original value, then a bus
write of the modified value, in that order; every one of those cycles
drives `dataBus`. A write below $2000 is stored directly into internal RAM
at `addr & 0x7ff` and is not dispatched through the mapper; only writes at
$2000 and above go through the mapper (with PPU catch-up first for
$2000-$3FFF). -/
theorem rmw_bus_order (os : ConsoleOps σ) (cycleAdd addrMode addr val : Nat)
    (s : Cpu σ) :
    rmwShape (aslRMW os cycleAdd addrMode addr s).2 addr ∧
    (∀ c ∈ (aslRMW os cycleAdd addrMode addr s).2, busOk c) ∧
    (addr < 0x2000 →
      (write os addr val s).1.console = os.ramWrite (addr &&& 0x7ff) val s.console) ∧
    (0x2000 ≤ addr → addr < 0x4000 →
      (write os addr val s).1.console =
        os.mapWrite addr val (os.ppuCatchUp s.instrBusCycles s.console)) ∧
    (0x4000 ≤ addr →
      (write os addr val s).1.console = os.mapWrite addr val s.console) := by
  refine ⟨aslRMW_shape os cycleAdd addrMode addr s,
    aslRMW_busOk os cycleAdd addrMode addr s, ?_, ?_, ?_⟩
  · intro h
    simp only [write, if_neg (show ¬(0x2000 ≤ addr ∧ addr < 0x4000) by omega), if_pos h]
  · intro h1 h2
    simp only [write, if_pos (show 0x2000 ≤ addr ∧ addr < 0x4000 from ⟨h1, h2⟩),
      if_neg (show ¬ addr < 0x2000 by omega)]
  · intro h
    simp only [write, if_neg (show ¬(0x2000 ≤ addr ∧ addr < 0x4000) by omega),
      if_neg (show ¬ addr < 0x2000 by omega)]

/-- Is the cycle a write? -/
def isWr : BusCyc → Bool
  | .wr _ _ _ => true
  | .rd _ _ _ => false

/-- Console instantiation that counts mapper write dispatches. -/
def countOps : ConsoleOps Nat :=
  ⟨fun _ _ => 0x11, fun _ _ n => n, fun _ _ n => (0, n), fun _ _ n => (0, n),
   fun _ _ n => n + 1, fun _ n => n⟩

/-- A CPU state whose console component counts zero mapper writes so far. -/
def cpu0 : Cpu Nat := ⟨0, 0xfd, 0, 0, 0, 0, 0⟩

/-- C6 counterexample: an ASL on zero-page address $10 performs two bus
write cycles but dispatches neither through the mapper — RAM writes bypass
`mmap.write`, contradicting the claim that both RMW writes are dispatched
through the mapper. -/
theorem rmw_ram_write_no_mapper_counterexample :
    (List.filter isWr (aslRMW countOps 1 0 0x10 cpu0).2).length = 2 ∧
    (aslRMW countOps 1 0 0x10 cpu0).1.console = 0 := by
  decide

end Bus

namespace Frame

/-! NES.frame dot accounting (src/src/tile.js, NES.frame and
CPU._ppuCatchUp). The PPU state that the frame loop's dot bookkeeping
reads and writes — `curX`, `requestEndFrame`, `nmiCounter`, `spr0HitX` —
is modelled concretely; everything else the dot machinery touches (the
sprite-0 status flag, `startVBlank`'s rendering and NMI request,
`endScanline`'s per-scanline work) is abstracted into a type `ρ` acted on
by hooks (`DotOps`). `endScanline` receives the whole PPU record because
the source's scanline-19/261 cases assign `curX`, `requestEndFrame` and
`nmiCounter`. The CPU instruction is an oracle `Instr`: the cycle count
`emulate()` returns, the `instrBusCycles` values at which the instruction
touches $2000-$3FFF (each such access runs `_ppuCatchUp`), and the DMA
stall cycles it adds (`haltCycles`). The `FrameSt` fields `dots`, `vbl`,
`instrTotal` and `haltTotal` are ghost instrumentation: `dots` counts
executed dot steps (a `curX` advance, wrapping through `endScanline`),
`vbl` counts VBlank transitions, the totals accumulate instruction and
consumed halt cycles. `fuel` bounds the iterations of the unbounded
`FRAMELOOP`; running out of fuel or of oracle instructions yields
`Except.error`, so `Except.ok` captures exactly the completed `frame()`
calls the claim quantifies over. -/

/-- PPU dot-position state. -/
structure Ppu (ρ : Type) where
  curX : Nat
  requestEndFrame : Bool
  nmiCounter : Int
  spr0HitX : Int
  rest : ρ

/-- Uninterpreted hooks for the PPU work the dot bookkeeping does not
read: the guarded sprite-0 status-flag update (its guard reads `curX`,
`spr0HitX` and rest-state fields), `startVBlank`, and `endScanline`. -/
structure DotOps (ρ : Type) where
  spr0Step : Nat → Int → ρ → ρ
  startVBlank : ρ → ρ
  endScanline : Ppu ρ → Ppu ρ

/-- One CPU instruction, as the frame loop observes it. -/
structure Instr where
  n : Nat
  accesses : List Nat
  haltAdd : Nat

/-- Frame-loop state: the PPU, the CPU catch-up bookkeeping, the DMA stall
counter, and the ghost counters. -/
structure FrameSt (ρ : Type) where
  ppu : Ppu ρ
  ppuCatchupDots : Nat
  ppuFrameEnded : Bool
  cyclesToHalt : Nat
  dots : Nat
  vbl : Nat
  instrTotal : Nat
  haltTotal : Nat

variable {ρ : Type}

/-- `curX++` with the `curX === 341` wrap into `endScanline()`. -/
def advanceDot (ops : DotOps ρ) (p : Ppu ρ) : Ppu ρ :=
  let p := { p with curX := p.curX + 1 }
  if p.curX = 341 then ops.endScanline { p with curX := 0 } else p

/-- The sprite-0 check applied to the current PPU record (shared first
statement of the catch-up and dot-loop bodies). -/
def spr0Checked (ops : DotOps ρ) (p : Ppu ρ) : Ppu ρ :=
  { p with rest := ops.spr0Step p.curX p.spr0HitX p.rest }

/-- VBlank firing inside `_ppuCatchUp`: clear `requestEndFrame`, run
`startVBlank`, set `ppuFrameEnded`, count the dot in `ppuCatchupDots`. -/
def catchVbl (ops : DotOps ρ) (st : FrameSt ρ) (p : Ppu ρ) : FrameSt ρ :=
  { st with ppu := { p with requestEndFrame := false, rest := ops.startVBlank p.rest },
            ppuFrameEnded := true,
            ppuCatchupDots := st.ppuCatchupDots + 1, vbl := st.vbl + 1 }

/-- One normal catch-up dot: advance `curX` and count the dot. -/
def catchAdvance (ops : DotOps ρ) (st : FrameSt ρ) (p : Ppu ρ) : FrameSt ρ :=
  { st with ppu := advanceDot ops p,
            ppuCatchupDots := st.ppuCatchupDots + 1, dots := st.dots + 1 }

/-- `_ppuCatchUp()`'s `while (ppuCatchupDots < targetDots)` loop. Each
iteration does the sprite-0 check, then either fires VBlank (counting the
dot and returning with `ppuFrameEnded`) or advances one dot. `fuel` bounds
the iterations; `targetDots` fuel is always enough since every iteration
increments `ppuCatchupDots`. -/
def ppuCatchUpLoop (ops : DotOps ρ) (targetDots : Nat) :
    Nat → FrameSt ρ → FrameSt ρ
  | 0, st => st
  | fuel + 1, st =>
    if st.ppuCatchupDots < targetDots then
      let p := spr0Checked ops st.ppu
      if p.requestEndFrame then
        let p := { p with nmiCounter := p.nmiCounter - 1 }
        if p.nmiCounter = 0 then
          catchVbl ops st p
        else
          ppuCatchUpLoop ops targetDots fuel (catchAdvance ops st p)
      else
        ppuCatchUpLoop ops targetDots fuel (catchAdvance ops st p)
    else st

/-- `emulate()` as the frame loop sees it: reset the catch-up counters,
run `_ppuCatchUp` at each of the instruction's PPU register accesses
(target `instrBusCycles * 3`), add any DMA stall cycles. -/
def instrStep (ops : DotOps ρ) (ins : Instr) (st : FrameSt ρ) : FrameSt ρ :=
  let st := { st with ppuCatchupDots := 0, ppuFrameEnded := false }
  let st := ins.accesses.foldl
    (fun st a => ppuCatchUpLoop ops (3 * a) (3 * a) st) st
  { st with cyclesToHalt := st.cyclesToHalt + ins.haltAdd }

/-- VBlank firing inside the frame loop's dot loop: clear
`requestEndFrame`, run `startVBlank`, count the VBlank transition. -/
def dotVbl (ops : DotOps ρ) (st : FrameSt ρ) (p : Ppu ρ) : FrameSt ρ :=
  { st with ppu := { p with requestEndFrame := false, rest := ops.startVBlank p.rest },
            vbl := st.vbl + 1 }

/-- One normal frame-loop dot: advance `curX` and count the dot. -/
def dotAdvance (ops : DotOps ρ) (st : FrameSt ρ) (p : Ppu ρ) : FrameSt ρ :=
  { st with ppu := advanceDot ops p, dots := st.dots + 1 }

/-- The frame loop's `for (; cycles > 0; cycles--)` dot loop. Returns the
state and `some leftover` when VBlank broke out of `FRAMELOOP` with
`leftover` budgeted dots never advanced (the loop counter after the
VBlank's own unit), or `none` when the budget ran out normally. -/
def dotLoop (ops : DotOps ρ) : Nat → FrameSt ρ → FrameSt ρ × Option Nat
  | 0, st => (st, none)
  | c + 1, st =>
    let p := spr0Checked ops st.ppu
    if p.requestEndFrame then
      let p := { p with nmiCounter := p.nmiCounter - 1 }
      if p.nmiCounter = 0 then
        (dotVbl ops st p, some c)
      else
        dotLoop ops c (dotAdvance ops st p)
    else
      dotLoop ops c (dotAdvance ops st p)

/-- The shared tail of a `FRAMELOOP` iteration once its dot budget
`cycles` is known: take the fast path (`curX += cycles`) when no frame end
or sprite-0 hit can occur in range, otherwise run the dot loop;
`next` continues the frame loop. -/
def stepDots (ops : DotOps ρ)
    (next : List Instr → FrameSt ρ → Except Unit (FrameSt ρ × Nat))
    (prog : List Instr) (cycles : Nat) (st : FrameSt ρ) :
    Except Unit (FrameSt ρ × Nat) :=
  let finalCurX := st.ppu.curX + cycles
  if ¬st.ppu.requestEndFrame ∧ finalCurX < 341 ∧
      (st.ppu.spr0HitX < (st.ppu.curX : Int) ∨ (finalCurX : Int) ≤ st.ppu.spr0HitX) then
    next prog { st with ppu := { st.ppu with curX := finalCurX },
                        dots := st.dots + cycles }
  else
    match dotLoop ops cycles st with
    | (st, some leftover) => .ok (st, leftover)
    | (st, none) => next prog st

/-- `NES.frame()`'s `FRAMELOOP`. A `.ok (r, leftover)` result is a
completed frame: `r` the final state and `leftover` the dots of the final
batch's budget that the frame-ending break discarded. -/
def frameLoop (ops : DotOps ρ) :
    Nat → List Instr → FrameSt ρ → Except Unit (FrameSt ρ × Nat)
  | 0, _, _ => .error ()
  | fuel + 1, prog, st =>
    if st.cyclesToHalt = 0 then
      match prog with
      | [] => .error ()
      | ins :: tl =>
        let st := instrStep ops ins st
        let st := { st with instrTotal := st.instrTotal + ins.n }
        let cycles := 3 * ins.n - st.ppuCatchupDots
        let st := { st with ppuCatchupDots := 0 }
        if st.ppuFrameEnded then
          .ok ({ st with ppuFrameEnded := false }, cycles)
        else
          stepDots ops (frameLoop ops fuel) tl cycles st
    else
      if 8 < st.cyclesToHalt then
        stepDots ops (frameLoop ops fuel) prog 24
          { st with cyclesToHalt := st.cyclesToHalt - 8,
                    haltTotal := st.haltTotal + 8 }
      else
        stepDots ops (frameLoop ops fuel) prog (3 * st.cyclesToHalt)
          { st with cyclesToHalt := 0, haltTotal := st.haltTotal + st.cyclesToHalt }

theorem ppuCatchUpLoop_acct (ops : DotOps ρ) (target : Nat) :
    ∀ (fuel : Nat) (st : FrameSt ρ),
    (ppuCatchUpLoop ops target fuel st).dots + (ppuCatchUpLoop ops target fuel st).vbl
        + st.ppuCatchupDots
      = st.dots + st.vbl + (ppuCatchUpLoop ops target fuel st).ppuCatchupDots ∧
    (ppuCatchUpLoop ops target fuel st).ppuCatchupDots ≤ max st.ppuCatchupDots target ∧
    (ppuCatchUpLoop ops target fuel st).cyclesToHalt = st.cyclesToHalt ∧
    (ppuCatchUpLoop ops target fuel st).instrTotal = st.instrTotal ∧
    (ppuCatchUpLoop ops target fuel st).haltTotal = st.haltTotal := by
  intro fuel
  induction fuel with
  | zero =>
    intro st
    refine ⟨?_, ?_, ?_, ?_, ?_⟩ <;>
      first
        | exact Nat.le_max_left st.ppuCatchupDots target
        | rfl
  | succ m ih =>
    intro st
    unfold ppuCatchUpLoop
    split
    next hlt =>
      dsimp only
      split
      · split
        · simp only [catchVbl]
          refine ⟨by omega, le_trans hlt (Nat.le_max_right _ _), ?_, ?_, ?_⟩ <;> trivial
        · obtain ⟨h1, h2, h3, h4, h5⟩ := ih
            { ppu := advanceDot ops
                { spr0Checked ops st.ppu with
                    nmiCounter := (spr0Checked ops st.ppu).nmiCounter - 1 },
              ppuCatchupDots := st.ppuCatchupDots + 1, ppuFrameEnded := st.ppuFrameEnded,
              cyclesToHalt := st.cyclesToHalt, dots := st.dots + 1, vbl := st.vbl,
              instrTotal := st.instrTotal, haltTotal := st.haltTotal }
          simp only [catchAdvance] at *
          refine ⟨by omega, by omega, h3, h4, h5⟩
      · obtain ⟨h1, h2, h3, h4, h5⟩ := ih
          { ppu := advanceDot ops (spr0Checked ops st.ppu),
            ppuCatchupDots := st.ppuCatchupDots + 1, ppuFrameEnded := st.ppuFrameEnded,
            cyclesToHalt := st.cyclesToHalt, dots := st.dots + 1, vbl := st.vbl,
            instrTotal := st.instrTotal, haltTotal := st.haltTotal }
        simp only [catchAdvance] at *
        refine ⟨by omega, by omega, h3, h4, h5⟩
    next hge =>
      refine ⟨?_, ?_, ?_, ?_, ?_⟩ <;>
        first
          | exact Nat.le_max_left st.ppuCatchupDots target
          | rfl

theorem catch_fold_acct (ops : DotOps ρ) (n : Nat) :
    ∀ (l : List Nat) (st : FrameSt ρ), (∀ a ∈ l, a ≤ n) →
    (l.foldl (fun st a => ppuCatchUpLoop ops (3 * a) (3 * a) st) st).dots
        + (l.foldl (fun st a => ppuCatchUpLoop ops (3 * a) (3 * a) st) st).vbl
        + st.ppuCatchupDots
      = st.dots + st.vbl
        + (l.foldl (fun st a => ppuCatchUpLoop ops (3 * a) (3 * a) st) st).ppuCatchupDots ∧
    (l.foldl (fun st a => ppuCatchUpLoop ops (3 * a) (3 * a) st) st).ppuCatchupDots
      ≤ max st.ppuCatchupDots (3 * n) ∧
    (l.foldl (fun st a => ppuCatchUpLoop ops (3 * a) (3 * a) st) st).cyclesToHalt
      = st.cyclesToHalt ∧
    (l.foldl (fun st a => ppuCatchUpLoop ops (3 * a) (3 * a) st) st).instrTotal
      = st.instrTotal ∧
    (l.foldl (fun st a => ppuCatchUpLoop ops (3 * a) (3 * a) st) st).haltTotal
      = st.haltTotal := by
  intro l
  induction l with
  | nil =>
    intro st _
    refine ⟨?_, ?_, ?_, ?_, ?_⟩ <;>
      first
        | exact Nat.le_max_left st.ppuCatchupDots (3 * n)
        | rfl
  | cons a tl ih =>
    intro st hb
    simp only [List.foldl_cons]
    obtain ⟨a1, a2, a3, a4, a5⟩ := ppuCatchUpLoop_acct ops (3 * a) (3 * a) st
    obtain ⟨b1, b2, b3, b4, b5⟩ := ih (ppuCatchUpLoop ops (3 * a) (3 * a) st)
      (fun x hx => hb x (List.mem_cons_of_mem _ hx))
    have han : a ≤ n := hb a (List.mem_cons_self _ _)
    refine ⟨by omega, by omega, by omega, by omega, by omega⟩

theorem instrStep_acct (ops : DotOps ρ) (ins : Instr) (st : FrameSt ρ)
    (ha : ∀ a ∈ ins.accesses, a ≤ ins.n) :
    (instrStep ops ins st).dots + (instrStep ops ins st).vbl
      = st.dots + st.vbl + (instrStep ops ins st).ppuCatchupDots ∧
    (instrStep ops ins st).ppuCatchupDots ≤ 3 * ins.n ∧
    (instrStep ops ins st).cyclesToHalt = st.cyclesToHalt + ins.haltAdd ∧
    (instrStep ops ins st).instrTotal = st.instrTotal ∧
    (instrStep ops ins st).haltTotal = st.haltTotal := by
  unfold instrStep
  obtain ⟨h1, h2, h3, h4, h5⟩ := catch_fold_acct ops ins.n ins.accesses
    { st with ppuCatchupDots := 0, ppuFrameEnded := false } ha
  simp only at h1 h2 h3 h4 h5
  simp only
  exact ⟨by omega, by omega, by omega, h4, h5⟩

theorem dotLoop_acct (ops : DotOps ρ) :
    ∀ (c : Nat) (st : FrameSt ρ),
    (dotLoop ops c st).1.dots + (dotLoop ops c st).1.vbl
        + ((dotLoop ops c st).2.getD 0)
      = st.dots + st.vbl + c ∧
    (dotLoop ops c st).1.cyclesToHalt = st.cyclesToHalt ∧
    (dotLoop ops c st).1.instrTotal = st.instrTotal ∧
    (dotLoop ops c st).1.haltTotal = st.haltTotal := by
  intro c
  induction c with
  | zero =>
    intro st
    refine ⟨?_, ?_, ?_, ?_⟩ <;> simp [dotLoop]
  | succ m ih =>
    intro st
    unfold dotLoop
    dsimp only
    split
    · split
      · simp only [dotVbl, Option.getD_some]
        refine ⟨by omega, ?_, ?_, ?_⟩ <;> trivial
      · obtain ⟨h1, h2, h3, h4⟩ := ih
          { ppu := advanceDot ops
              { spr0Checked ops st.ppu with
                  nmiCounter := (spr0Checked ops st.ppu).nmiCounter - 1 },
            ppuCatchupDots := st.ppuCatchupDots, ppuFrameEnded := st.ppuFrameEnded,
            cyclesToHalt := st.cyclesToHalt, dots := st.dots + 1, vbl := st.vbl,
            instrTotal := st.instrTotal, haltTotal := st.haltTotal }
        simp only [dotAdvance] at *
        exact ⟨by omega, h2, h3, h4⟩
    · obtain ⟨h1, h2, h3, h4⟩ := ih
        { ppu := advanceDot ops (spr0Checked ops st.ppu),
          ppuCatchupDots := st.ppuCatchupDots, ppuFrameEnded := st.ppuFrameEnded,
          cyclesToHalt := st.cyclesToHalt, dots := st.dots + 1, vbl := st.vbl,
          instrTotal := st.instrTotal, haltTotal := st.haltTotal }
      simp only [dotAdvance] at *
      exact ⟨by omega, h2, h3, h4⟩

theorem stepDots_acct (ops : DotOps ρ)
    (next : List Instr → FrameSt ρ → Except Unit (FrameSt ρ × Nat))
    (prog : List Instr) (cycles : Nat) (st : FrameSt ρ) (r : FrameSt ρ) (c : Nat)
    (hnext : ∀ (st2 r2 : FrameSt ρ) (c2 : Nat), next prog st2 = .ok (r2, c2) →
      r2.dots + r2.vbl + c2 + 3 * st2.instrTotal + 3 * st2.haltTotal =
        st2.dots + st2.vbl + 3 * r2.instrTotal + 3 * r2.haltTotal)
    (h : stepDots ops next prog cycles st = .ok (r, c)) :
    r.dots + r.vbl + c + 3 * st.instrTotal + 3 * st.haltTotal =
      st.dots + st.vbl + cycles + 3 * r.instrTotal + 3 * r.haltTotal := by
  unfold stepDots at h
  dsimp only at h
  split at h
  · have hn := hnext _ r c h
    simp only at hn
    omega
  · obtain ⟨d1, d2, d3, d4⟩ := dotLoop_acct ops cycles st
    rcases hq : dotLoop ops cycles st with ⟨st2, o⟩
    rw [hq] at h d1 d2 d3 d4
    rcases o with _ | l
    · simp only [Option.getD_none] at h d1 d2 d3 d4
      have hn := hnext _ r c h
      omega
    · simp only [Option.getD_some] at h d1 d2 d3 d4
      injection h with h2
      injection h2 with hr hc
      subst hr
      subst hc
      omega

theorem frameLoop_acct (ops : DotOps ρ) :
    ∀ (fuel : Nat) (prog : List Instr) (st : FrameSt ρ) (r : FrameSt ρ) (c : Nat),
    (∀ ins ∈ prog, ∀ a ∈ ins.accesses, a ≤ ins.n) →
    frameLoop ops fuel prog st = .ok (r, c) →
    r.dots + r.vbl + c + 3 * st.instrTotal + 3 * st.haltTotal =
      st.dots + st.vbl + 3 * r.instrTotal + 3 * r.haltTotal := by
  intro fuel
  induction fuel with
  | zero =>
    intro prog st r c _ h
    exact absurd h (by simp [frameLoop])
  | succ m ih =>
    intro prog st r c hacc h
    unfold frameLoop at h
    split at h
    · rcases prog with _ | ⟨ins, tl⟩
      · exact absurd h (by simp)
      · dsimp only at h
        obtain ⟨g1, g2, g3, g4, g5⟩ := instrStep_acct ops ins st
          (hacc ins (List.mem_cons_self _ _))
        split at h
        · injection h with h2
          injection h2 with hr hc
          subst hr
          subst hc
          simp only
          omega
        · have hstep := stepDots_acct ops (frameLoop ops m) tl _ _ r c
            (fun st2 r2 c2 hh =>
              ih tl st2 r2 c2 (fun i hi => hacc i (List.mem_cons_of_mem _ hi)) hh) h
          simp only at hstep
          omega
    · split at h
      · have hstep := stepDots_acct ops (frameLoop ops m) prog _ _ r c
          (fun st2 r2 c2 hh => ih prog st2 r2 c2 hacc hh) h
        simp only at hstep
        omega
      · have hstep := stepDots_acct ops (frameLoop ops m) prog _ _ r c
          (fun st2 r2 c2 hh => ih prog st2 r2 c2 hacc hh) h
        simp only at hstep
        omega

/-- C2 (amended): for every completed `frame()` call (the frame loop
returns), every budgeted PPU dot — 3 per CPU instruction cycle plus 3 per
consumed DMA-stall cycle — is accounted for exactly once: as an actual dot
advance (whether performed mid-instruction by `_ppuCatchUp` or by the frame
loop), as a VBlank transition, or as part of the `leftover` budget that the
frame-ending break discards without advancing; in particular
`dots + vbl + leftover = 3 * instrCycles + 3 * haltCycles`, so the frame
advances fewer than `3 * cycles` dots whenever the VBlank break leaves a
remainder. -/
theorem frame_dot_accounting (ops : DotOps ρ) (fuel : Nat) (prog : List Instr)
    (st r : FrameSt ρ) (leftover : Nat)
    (hacc : ∀ ins ∈ prog, ∀ a ∈ ins.accesses, a ≤ ins.n)
    (hz : st.dots = 0 ∧ st.vbl = 0 ∧ st.instrTotal = 0 ∧ st.haltTotal = 0)
    (h : frameLoop ops fuel prog st = .ok (r, leftover)) :
    r.dots + r.vbl + leftover = 3 * r.instrTotal + 3 * r.haltTotal := by
  have := frameLoop_acct ops fuel prog st r leftover hacc h
  omega

/-- Trivial dot hooks on a unit rest state. -/
def uops : DotOps Unit := ⟨fun _ _ r => r, id, id⟩

/-- A frame-loop state three dots before VBlank, ghost counters zeroed. -/
def stC2 : FrameSt Unit := ⟨⟨0, true, 3, -1, ()⟩, 0, false, 0, 0, 0, 0, 0⟩

/-- A one-instruction program: a 2-cycle instruction with no PPU access
and no DMA stall. -/
def progC2 : List Instr := [⟨2, [], 0⟩]

/-- The state in which `frameLoop` completes the `stC2` frame. -/
def rC2 : FrameSt Unit := ⟨⟨2, false, 0, -1, ()⟩, 0, false, 0, 2, 1, 2, 0⟩

/-- C2 counterexample: a completed frame whose final 2-cycle instruction
budgets 6 dots but VBlank fires on the third, so only 2 dots advance (plus
the VBlank transition) and 3 budgeted dots are discarded — the frame's
advanced dots (3, even counting the VBlank transition) differ from
3 x cycles = 6. -/
theorem frame_dot_loss_counterexample :
    (frameLoop uops 2 progC2 stC2).toOption.map
        (fun rc => (rc.1.dots + rc.1.vbl, 3 * rc.1.instrTotal + 3 * rc.1.haltTotal, rc.2))
      = some (3, 6, 3) ∧
    (3 : Nat) ≠ 6 := by
  decide

/-- C2 witness: the amended accounting theorem at the concrete frame. -/
theorem frame_dot_accounting_witness :
    rC2.dots + rC2.vbl + 3 = 3 * rC2.instrTotal + 3 * rC2.haltTotal :=
  frame_dot_accounting uops 2 progC2 stC2 rC2 3 (by decide)
    ⟨rfl, rfl, rfl, rfl⟩ (by rfl)

end Frame

namespace Crash

/-! Invalid-opcode crash handling (src/src/tile.js: OpData, CPU.emulate's
dispatch switch, NES.frame, NES.reset, NES.loadROM). The 256-entry opcode
table is `OpData`: every entry starts as `0xff` (invalid) and `setOp(inst,
op, addr, size, cycles)` stores `inst | addr << 8 | size << 16 |
cycles << 24`; the table below lists the resulting values for opcodes
0x00-0xff. `emulate()` dispatches on `opdata[opcode] & 0xff`; the switch
has cases 0-69 and 71-77, and anything else (in particular the 0xff of an
opcode with no entry) falls into the default case, which throws the
invalid-opcode error. The per-case instruction semantics are abstracted
into the hook `exec` on an abstract machine state `κ`; the frame body
(the FRAMELOOP) is likewise a hook `run` returning the mutated state and
the thrown error, if any. -/

/-- The constructed `OpData.opdata` table. -/
def opdata : List Nat := [
    117506570, 100796962, 255, 134351426, 50462789, 50462754, 84017154, 84017218,
    50397732, 33686818, 33620994, 33686841, 67306309, 67306274, 100860674, 100860738,
    33685769, 84020002, 255, 134351682, 67241541, 67241506, 100795906, 100795970,
    33620493, 67307810, 33620513, 117639490, 67307589, 67307554, 117639170, 117639234,
    100860700, 100796929, 255, 134351424, 50462726, 50462721, 84017191, 84017216,
    67174950, 33686785, 33621031, 33686841, 67306246, 67306241, 100860711, 100860736,
    33685767, 84019969, 255, 134351680, 67241541, 67241473, 100795943, 100795968,
    33620524, 67307777, 33620513, 117639488, 67307589, 67307521, 117639207, 117639232,
    100729385, 100796951, 255, 134351427, 50462789, 50462743, 84017184, 84017219,
    50397731, 33686807, 33621024, 33686840, 50529051, 67306263, 100860704, 100860739,
    33685771, 84019991, 255, 134351683, 67241541, 67241495, 100795936, 100795971,
    33620495, 67307799, 33620513, 117639491, 67307589, 67307543, 117639200, 117639235,
    100729386, 100796928, 255, 134351425, 50462789, 50462720, 84017192, 84017217,
    67174949, 33686784, 33621032, 33686842, 84085787, 67306240, 100860712, 100860737,
    33685772, 84019968, 255, 134351681, 67241541, 67241472, 100795944, 100795969,
    33620526, 67307776, 33620513, 117639489, 67307589, 67307520, 117639208, 117639233,
    33686852, 100796975, 33686852, 100796989, 50462769, 50462767, 50462768, 50462781,
    33620502, 33686852, 33620533, 33686860, 67306289, 67306287, 67306288, 67306301,
    33685763, 100797231, 255, 100797255, 67241521, 67241519, 67241776, 67241789,
    33620535, 84085039, 33620534, 84085064, 84084809, 84084783, 84085066, 84085063,
    33686815, 100796957, 33686814, 100796988, 50462751, 50462749, 50462750, 50462780,
    33620531, 33686813, 33620530, 33686861, 67306271, 67306269, 67306270, 67306300,
    33685764, 84019997, 255, 84020028, 67241503, 67241501, 67241758, 67241788,
    33620496, 67307805, 33620532, 67307851, 67307551, 67307549, 67307806, 67307836,
    33686803, 100796945, 33686852, 134351422, 50462739, 50462737, 84017172, 84017214,
    33620506, 33686801, 33620501, 33686843, 67306259, 67306257, 100860692, 100860734,
    33685768, 84019985, 255, 134351678, 67241541, 67241489, 100795924, 100795966,
    33620494, 67307793, 33620513, 117639486, 67307589, 67307537, 117639188, 117639230,
    33686802, 100796971, 33686852, 134351423, 50462738, 50462763, 84017176, 84017215,
    33620505, 33686827, 33620513, 33686827, 67306258, 67306283, 100860696, 100860735,
    33685765, 84020011, 255, 134351679, 67241541, 67241515, 100795928, 100795967,
    33620525, 67307819, 33620513, 117639487, 67307589, 67307563, 117639192, 117639231
  ]

/-- The instruction indices with a case in `emulate()`'s dispatch switch
(cases 0-69 and 71-77; `INS_DUMMY = 70` has no case and is never used by
`setOp`). -/
def instrCases : List Nat := List.range 70 ++ [71, 72, 73, 74, 75, 76, 77]

/-- The errors `frame()` can propagate. -/
inductive NesError where
  | invalidOpcode (opaddr : Nat)
  | crashed
  deriving DecidableEq

/-- `emulate()`'s dispatch: `opinf = opdata[opcode]`; an instruction index
with a switch case runs that case (the hook `exec`); the default case
throws the invalid-opcode error naming the instruction address. -/
def emulate (exec : Nat → κ → κ × Option NesError) (opcode opaddr : Nat)
    (k : κ) : κ × Option NesError :=
  if instrCases.contains ((opdata.getD opcode 0xff) &&& 0xff) then exec opcode k
  else (k, some (.invalidOpcode opaddr))

/-- The console as the crash handling sees it: the `crashed` flag and the
rest of the machine. -/
structure Nes (κ : Type) where
  crashed : Bool
  core : κ

/-- `NES.frame()`'s crash wrapper: a crashed console throws immediately
without running the frame body; otherwise the body runs, and if it throws,
the catch sets `crashed` and rethrows. -/
def frame (run : κ → κ × Option NesError) (s : Nes κ) : Nes κ × Option NesError :=
  if s.crashed then (s, some .crashed)
  else
    match run s.core with
    | (c, none) => ({ s with core := c }, none)
    | (c, some e) => ({ s with core := c, crashed := true }, some e)

/-- `NES.reset()` (also invoked by `loadROM()`): reset the chips and clear
the `crashed` flag. -/
def reset (resetChips : κ → κ) (s : Nes κ) : Nes κ :=
  { crashed := false, core := resetChips s.core }

/-- C8: an opcode with no dispatch-table entry (table value 0xff) makes
`emulate()` throw the invalid-opcode error; a `frame()` whose body throws
sets the console's `crashed` flag and rethrows; every subsequent `frame()`
call — whatever its body would do — returns the crashed error with the
state untouched, i.e. without executing; and after `reset()` (which
`loadROM()` also calls) the flag is clear and `frame()` runs its body
normally again. -/
theorem crash_handling {κ : Type} (exec : Nat → κ → κ × Option NesError)
    (run run2 : κ → κ × Option NesError) (resetChips : κ → κ)
    (s : Nes κ) (opcode opaddr : Nat) (k c : κ) (e : NesError)
    (hinv : opdata.getD opcode 0xff = 0xff)
    (hcr : s.crashed = false)
    (hrun : run s.core = (c, some e)) :
    emulate exec opcode opaddr k = (k, some (.invalidOpcode opaddr)) ∧
    frame run s = ({ s with core := c, crashed := true }, some e) ∧
    frame run2 { s with core := c, crashed := true } =
      ({ s with core := c, crashed := true }, some .crashed) ∧
    (reset resetChips { s with core := c, crashed := true }).crashed = false ∧
    frame run2 (reset resetChips { s with core := c, crashed := true }) =
      (match run2 (resetChips c) with
        | (c2, none) => ({ crashed := false, core := c2 }, none)
        | (c2, some e2) => ({ crashed := true, core := c2 }, some e2)) := by
  refine ⟨?_, ?_, ?_, rfl, ?_⟩
  · unfold emulate
    rw [hinv, if_neg (by decide)]
  · unfold frame
    rw [if_neg (by rw [hcr]; exact Bool.false_ne_true), hrun]
  · unfold frame
    rw [if_pos rfl]
  · unfold frame reset
    rw [if_neg Bool.false_ne_true]

/-- C8 witness: the crash flow at a concrete machine. -/
theorem crash_handling_witness :
    emulate (fun _ (k : Nat) => (k, none)) 0x02 0x8000 7 =
      (7, some (NesError.invalidOpcode 0x8000)) ∧
    frame (fun n => (n + 1, some (NesError.invalidOpcode 0x8000))) ⟨false, 5⟩ =
      (⟨true, 6⟩, some (NesError.invalidOpcode 0x8000)) ∧
    frame (fun (n : Nat) => (n, none)) ⟨true, 6⟩ = (⟨true, 6⟩, some NesError.crashed) ∧
    (reset (fun (_ : Nat) => 0) ⟨true, 6⟩).crashed = false ∧
    frame (fun (n : Nat) => (n, none)) (reset (fun _ => 0) ⟨true, 6⟩) = (⟨false, 0⟩, none) := by
  obtain ⟨h1, h2, h3, h4, h5⟩ := crash_handling (fun _ (k : Nat) => (k, none))
    (fun n => (n + 1, some (NesError.invalidOpcode 0x8000))) (fun (n : Nat) => (n, none))
    (fun _ => 0) ⟨false, 5⟩ 0x02 0x8000 7 6 (NesError.invalidOpcode 0x8000)
    (by decide) rfl rfl
  exact ⟨h1, h2, h3, h4, h5.trans rfl⟩

end Crash

end JsnesProof
